import Mathlib

/-!
Verification of the LLM-orchestration core of the obradoria-agent service.

The definitions below are a shallow embedding of the Python sources:

* `app/llm/base.py` — normalized tool/response data model;
* `app/llm/anthropic.py` — the Anthropic adapter: message conversion,
  response parsing and the 429/529 retry loop;
* `app/llm/openai.py` — the OpenAI adapter: response parsing and the
  (retry-free) tool-calling completion call;
* `app/core/agent.py` — the `BudgetAgent` tool-use loop;
* `app/core/tools.py` — tool handlers and the single-slot batch cache;
* `app/core/orchestrator.py` — the fan-out pricing/synthesis pipeline and
  the conversational orchestrator;
* `app/core/conversation.py` — the session store and field state;
* `app/core/models.py` — domain dataclasses.

Monetary and similarity values are modelled with `ℚ` (the Python floats),
token counts and timing fields are omitted where no claim mentions them,
and external collaborators (HTTP, search, pricing, persistence) are
modelled as explicit oracles passed to the embedded functions.
-/

namespace Obradoria

/-- Arguments of a tool call (`Dict[str, Any]` in the source); the claims
never inspect the payload, so it is embedded as an association list. -/
abbrev Args := List (String × String)

/-- Normalized stop reason (`app/llm/base.py`, `class StopReason`). -/
inductive StopReason where
  | endTurn
  | toolUse
  | maxTokens
deriving DecidableEq

/-- A tool call requested by the model (`app/llm/base.py`, `class ToolCall`). -/
structure ToolCall where
  id : String
  name : String
  arguments : Args
deriving DecidableEq

/-- Result of executing one tool (`app/llm/base.py`, `class ToolResult`). -/
structure ToolResult where
  tool_call_id : String
  content : String
  is_error : Bool
deriving DecidableEq

/-- Normalized model reply (`app/llm/base.py`, `class LLMResponseWithTools`);
model/provider/token/latency fields are omitted (no claim mentions them). -/
structure LLMResponseWithTools where
  content : Option String
  tool_calls : List ToolCall
  stop_reason : StopReason
deriving DecidableEq

/-- Streamed SSE event (`app/core/models.py`, `class EventoStream`); the
`dados`/`progresso`/`timestamp` payloads are omitted — the claims only
speak about which events appear and in which order. -/
structure EventoStream where
  etapa : String
  mensagem : String
deriving DecidableEq

/-! ## Estatisticas (`app/core/models.py`) -/

/-- Processing statistics (`app/core/models.py`, `class Estatisticas`). -/
structure Estatisticas where
  total_itens : Nat
  itens_com_preco : Nat
  itens_sem_composicao : Nat
  itens_sem_preco : Nat
  alta_confianca : Nat
  media_confianca : Nat
  baixa_confianca : Nat
deriving DecidableEq

/-- The `taxa_sucesso` property of `Estatisticas`: guarded division, with the
zero-items branch returning `0.0` before any division happens. -/
def Estatisticas.taxa_sucesso (e : Estatisticas) : ℚ :=
  if e.total_itens = 0 then 0
  else ((e.itens_com_preco : ℚ) / (e.total_itens : ℚ)) * 100

/-! ## Anthropic and OpenAI response parsing (`_parse_response`) -/

/-- One content block of an Anthropic `/v1/messages` response body
(`data["content"]` entries as read by `AnthropicProvider._parse_response`). -/
inductive ARespBlock where
  | text (s : String)
  | toolUse (id name : String) (input : Args)
  | other
deriving DecidableEq

/-- The fields of an Anthropic response body consumed by
`AnthropicProvider._parse_response`; `stop_reason := none` models a JSON
body without the key (Python `data.get("stop_reason", "end_turn")`). -/
structure AnthropicData where
  content : List ARespBlock
  stop_reason : Option String
deriving DecidableEq

/-- Shallow embedding of `AnthropicProvider._parse_response`
(`app/llm/anthropic.py`). -/
def anthropicParseResponse (d : AnthropicData) : LLMResponseWithTools :=
  let content_text :=
    d.content.foldl (fun acc b => match b with | .text s => acc ++ s | _ => acc) ""
  let tool_calls :=
    d.content.foldr
      (fun b acc => match b with
        | .toolUse i n args => ToolCall.mk i n args :: acc
        | _ => acc) []
  let stop := d.stop_reason.getD "end_turn"
  let stop_reason :=
    if stop = "tool_use" then StopReason.toolUse
    else if stop = "max_tokens" then StopReason.maxTokens
    else StopReason.endTurn
  { content := if content_text = "" then none else some content_text
    tool_calls := tool_calls
    stop_reason := stop_reason }

/-- One entry of `message["tool_calls"]` in an OpenAI chat completion, as
read by `OpenAIProvider._parse_response` (arguments already decoded). -/
structure OAToolCall where
  id : String
  name : String
  arguments : Args
deriving DecidableEq

/-- The fields of an OpenAI chat-completion choice consumed by
`OpenAIProvider._parse_response`; `finish_reason := none` models a body
without the key (Python `choice.get("finish_reason", "stop")`). -/
structure OpenAIData where
  content : Option String
  tool_calls : List OAToolCall
  finish_reason : Option String
deriving DecidableEq

/-- Shallow embedding of `OpenAIProvider._parse_response`
(`app/llm/openai.py`). -/
def openaiParseResponse (d : OpenAIData) : LLMResponseWithTools :=
  let tool_calls := d.tool_calls.map (fun tc => ToolCall.mk tc.id tc.name tc.arguments)
  let finish := d.finish_reason.getD "stop"
  let stop_reason :=
    if finish = "tool_calls" then StopReason.toolUse
    else if finish = "length" then StopReason.maxTokens
    else if tool_calls.isEmpty then StopReason.endTurn
    else StopReason.toolUse
  { content := d.content, tool_calls := tool_calls, stop_reason := stop_reason }

/-! ## Retry policy (`AnthropicProvider._post_with_retry`,
`OpenAIProvider.complete_with_tools`) -/

/-- The observable part of one HTTP response: status code and the parsed
`retry-after` header (`none` when the header is absent). -/
structure HttpResp where
  status : Nat
  retry_after : Option ℚ
deriving DecidableEq

/-- `MAX_RETRIES` in `app/llm/anthropic.py`. -/
def MAX_RETRIES : Nat := 3

/-- `RETRY_BASE_DELAY` (seconds) in `app/llm/anthropic.py`. -/
def RETRY_BASE_DELAY : ℚ := 1

/-- Outcome of a completion call: `raised s` models
`response.raise_for_status()` firing on HTTP status `s`, `returned s` a
successful return with status `s`. -/
inductive CallOutcome where
  | raised (status : Nat)
  | returned (status : Nat)
deriving DecidableEq

/-- Observable record of one completion call: its outcome, the number of
POST requests issued, and the sleeps performed between retries. -/
structure RetryRun where
  outcome : CallOutcome
  requests : Nat
  delays : List ℚ
deriving DecidableEq

/-- Loop body of `AnthropicProvider._post_with_retry`: `remaining` is the
number of loop iterations left (`MAX_RETRIES + 1 - attempt`), `attempt`
the current index of `for attempt in range(MAX_RETRIES + 1)`; the network
is an oracle mapping each attempt index to its response. The
`remaining = 0` base case is unreachable when starting from
`MAX_RETRIES + 1` (the final attempt always returns or raises). -/
def anthropicRetryAux (script : Nat → HttpResp) : Nat → Nat → RetryRun
  | 0, _ => { outcome := CallOutcome.raised 0, requests := 0, delays := [] }
  | remaining + 1, attempt =>
    let r := script attempt
    if (r.status = 429 ∨ r.status = 529) ∧ attempt < MAX_RETRIES then
      let delay := r.retry_after.getD (RETRY_BASE_DELAY * 2 ^ attempt)
      let rest := anthropicRetryAux script remaining (attempt + 1)
      { outcome := rest.outcome
        requests := rest.requests + 1
        delays := delay :: rest.delays }
    else if r.status ≥ 400 then
      { outcome := CallOutcome.raised r.status, requests := 1, delays := [] }
    else
      { outcome := CallOutcome.returned r.status, requests := 1, delays := [] }

/-- Shallow embedding of `AnthropicProvider._post_with_retry`
(`app/llm/anthropic.py`). -/
def anthropicPostWithRetry (script : Nat → HttpResp) : RetryRun :=
  anthropicRetryAux script (MAX_RETRIES + 1) 0

/-- Shallow embedding of the HTTP behaviour of
`OpenAIProvider.complete_with_tools` (`app/llm/openai.py`): a single POST
followed by `raise_for_status()`, with no retry of any status. -/
def openaiCompleteRun (script : Nat → HttpResp) : RetryRun :=
  let r := script 0
  if r.status ≥ 400 then { outcome := CallOutcome.raised r.status, requests := 1, delays := [] }
  else { outcome := CallOutcome.returned r.status, requests := 1, delays := [] }

/-- A response that the Anthropic adapter treats as retryable. -/
def retryableStatus (r : HttpResp) : Prop := r.status = 429 ∨ r.status = 529

instance (r : HttpResp) : Decidable (retryableStatus r) := by
  unfold retryableStatus; infer_instance

/-! ## Generic message model and the agent loop (`app/core/agent.py`) -/

/-- One entry of the provider-neutral message history built by
`BudgetAgent.process_stream`: the `{role: user|assistant|tool}` dicts.
For assistant messages, `content := none` models an absent (or `None`)
`content` key. -/
inductive GMsg where
  | user (content : String)
  | assistant (content : Option String) (tool_calls : List ToolCall)
  | tool (tool_call_id : String) (content : String) (is_error : Bool)
deriving DecidableEq

/-- `MAX_ITERATIONS` in `app/core/agent.py`. -/
def MAX_ITERATIONS : Nat := 30

/-- `TOOL_EVENT_MAP` in `app/core/agent.py`: tool name to
(start stage, end stage, start message). -/
def TOOL_EVENT_MAP (name : String) : Option (String × String × String) :=
  if name = "buscar_orcamento_referencia" then
    some ("load_base", "load_base_done", "Buscando estrutura de referência...")
  else if name = "processar_itens_orcamento" then
    some ("search", "search_done", "Processando itens (SINAPI + preços)...")
  else if name = "salvar_orcamento" then
    some ("persist", "persist_done", "Salvando orçamento...")
  else none

/-- Shallow embedding of `execute_tool` (`app/core/tools.py`): dispatch to
a handler oracle, converting handler failures (`Except.error`) into
error-flagged results, never raising. -/
def execute_tool (handlers : String → Option (Args → Except String String))
    (tool_call_id : String) (tool_name : String) (arguments : Args) : ToolResult :=
  match handlers tool_name with
  | none =>
      { tool_call_id := tool_call_id
        content := "Erro: tool desconhecida " ++ tool_name
        is_error := true }
  | some h =>
      match h arguments with
      | Except.ok content =>
          { tool_call_id := tool_call_id, content := content, is_error := false }
      | Except.error e =>
          { tool_call_id := tool_call_id
            content := "Erro em " ++ tool_name ++ ": " ++ e
            is_error := true }

/-- The tool-execution stretch of one agent iteration
(`for tc in response.tool_calls` in `BudgetAgent.process_stream`):
returns the appended `role: tool` messages (in call order) and the
progress events emitted around each call. -/
def runToolCalls (handlers : String → Option (Args → Except String String)) :
    List ToolCall → List GMsg × List EventoStream
  | [] => ([], [])
  | tc :: rest =>
    let result := execute_tool handlers tc.id tc.name tc.arguments
    let startEvs : List EventoStream :=
      match TOOL_EVENT_MAP tc.name with
      | some (s, _, m) => [{ etapa := s, mensagem := m }]
      | none => []
    let endEvs : List EventoStream :=
      match TOOL_EVENT_MAP tc.name with
      | some (_, f, _) => [{ etapa := f, mensagem := "Concluido: " ++ tc.name }]
      | none => []
    let tail := runToolCalls handlers rest
    (GMsg.tool result.tool_call_id result.content result.is_error :: tail.1,
     startEvs ++ endEvs ++ tail.2)

/-- Result of one `BudgetAgent.process_stream` run: the final message
history, the emitted events in order, and the number of
`complete_with_tools` calls made. -/
structure AgentRun where
  messages : List GMsg
  events : List EventoStream
  llm_calls : Nat
deriving DecidableEq

/-- The Python truthiness test `if response.content:` applied to an
`Optional[str]`. -/
def truthyContent (c : Option String) : Option String :=
  match c with
  | some s => if s = "" then none else some s
  | none => none

/-- The terminal error message of the exhausted agent loop. -/
def MSG_LIMITE : String :=
  "Limite de iteracoes do agent atingido. Tente simplificar o pedido."

/-- The iteration structure of `BudgetAgent.process_stream`:
`remaining` counts the loop iterations left (starting at
`MAX_ITERATIONS`), `iteration` is the current index; the provider is an
oracle from iteration index to the `complete_with_tools` outcome
(`Except.error` models a raised exception). -/
def agentIterate (script : Nat → Except String LLMResponseWithTools)
    (handlers : String → Option (Args → Except String String)) :
    Nat → Nat → List GMsg → List EventoStream → Nat → AgentRun
  | 0, _, msgs, evs, calls =>
    { messages := msgs
      events := evs ++ [{ etapa := "error", mensagem := MSG_LIMITE }]
      llm_calls := calls }
  | remaining + 1, iteration, msgs, evs, calls =>
    match script iteration with
    | Except.error e =>
      { messages := msgs
        events := evs ++ [{ etapa := "error", mensagem := "Erro ao chamar LLM: " ++ e }]
        llm_calls := calls + 1 }
    | Except.ok response =>
      if response.tool_calls = [] then
        { messages := msgs ++ [GMsg.assistant (some (response.content.getD "")) []]
          events := evs ++ [{ etapa := "complete", mensagem := response.content.getD "" }]
          llm_calls := calls + 1 }
      else
        let assistantMsg := GMsg.assistant (truthyContent response.content) response.tool_calls
        let contentEvs : List EventoStream :=
          match truthyContent response.content with
          | some s => [{ etapa := "message", mensagem := s }]
          | none => []
        let tr := runToolCalls handlers response.tool_calls
        agentIterate script handlers remaining (iteration + 1)
          (msgs ++ assistantMsg :: tr.1) (evs ++ contentEvs ++ tr.2) (calls + 1)

/-- Shallow embedding of `BudgetAgent.process_stream` (`app/core/agent.py`). -/
def agentProcessStream (script : Nat → Except String LLMResponseWithTools)
    (handlers : String → Option (Args → Except String String))
    (historico : List GMsg) (mensagem_usuario : String) : AgentRun :=
  agentIterate script handlers MAX_ITERATIONS 0
    (historico ++ [GMsg.user mensagem_usuario]) [] 0

/-- Terminal events in the sense of the streaming protocol. -/
def isTerminalEvent (e : EventoStream) : Bool :=
  e.etapa = "complete" || e.etapa = "error"

/-- Left-to-right scan checking the tool-call/result pairing discipline:
the state is the list of tool-call ids whose results are still expected;
an assistant message with calls installs its ids, each expected id must be
answered by the next message (a matching `role: tool` message), and a
`role: tool` message is rejected when no result is expected. `some []`
at the end means the history is fully paired. -/
def scanS : List String → List GMsg → Option (List String)
  | es, [] => some es
  | [], GMsg.user _ :: rest => scanS [] rest
  | [], GMsg.assistant _ tcs :: rest => scanS (tcs.map (fun tc => tc.id)) rest
  | [], GMsg.tool _ _ _ :: _ => none
  | e :: es, GMsg.tool id _ _ :: rest => if e = id then scanS es rest else none
  | _ :: _, GMsg.user _ :: _ => none
  | _ :: _, GMsg.assistant _ _ :: _ => none

/-- A history in which every assistant message with N tool calls is
immediately followed by exactly its N matching results, in call order. -/
def wellPaired (msgs : List GMsg) : Prop := scanS [] msgs = some []

instance (msgs : List GMsg) : Decidable (wellPaired msgs) := by
  unfold wellPaired; infer_instance

/-! ## Anthropic message conversion (`AnthropicProvider._convert_messages`) -/

/-- A content block of an Anthropic request message. -/
inductive ABlock where
  | text (s : String)
  | toolUse (id name : String) (input : Args)
  | toolResult (tool_use_id : String) (content : String) (is_error : Bool)
deriving DecidableEq

/-- Content of an Anthropic request message: either a plain string or a
list of blocks (the converter produces both shapes). -/
inductive AContent where
  | str (s : String)
  | blocks (l : List ABlock)
deriving DecidableEq

/-- One message in Anthropic wire format. -/
structure AMsg where
  role : String
  content : AContent
deriving DecidableEq

/-- Whether a generic message has `role == "tool"`. -/
def isToolMsg : GMsg → Bool
  | GMsg.tool _ _ _ => true
  | _ => false

/-- The `tool_result` block built from a `role: tool` message (only applied
to tool messages; the fallback is never reached under `takeWhile isToolMsg`). -/
def toolResultBlock : GMsg → ABlock
  | GMsg.tool id c err => ABlock.toolResult id c err
  | _ => ABlock.text ""

/-- The assistant message built by `_convert_messages`: a text block for
non-empty content followed by one `tool_use` block per call, falling back
to plain-string content when there are no blocks. -/
def assistantAMsg (c : Option String) (tcs : List ToolCall) : AMsg :=
  let textBlocks : List ABlock :=
    match c with
    | some s => if s = "" then [] else [ABlock.text s]
    | none => []
  let useBlocks : List ABlock :=
    tcs.map (fun tc => ABlock.toolUse tc.id tc.name tc.arguments)
  let blocks := textBlocks ++ useBlocks
  { role := "assistant"
    content := if blocks = [] then AContent.str (c.getD "") else AContent.blocks blocks }

/-- What one assistant turn pushes onto the (reversed) output: the
assistant message and, when the following run of tool messages was
non-empty, the synthetic `user` message holding their `tool_result`
blocks. -/
def convertStepAcc (c : Option String) (tcs : List ToolCall)
    (resultBlocks : List ABlock) (acc : List AMsg) : List AMsg :=
  if resultBlocks = [] then assistantAMsg c tcs :: acc
  else { role := "user", content := AContent.blocks resultBlocks } :: assistantAMsg c tcs :: acc

/-- Main loop of `AnthropicProvider._convert_messages`
(`app/llm/anthropic.py`), with the output kept reversed in `acc` so that
the merge of consecutive user messages can look at the last emitted
message. An assistant message consumes the following run of `role: tool`
messages into one synthetic `role: user` message of `tool_result` blocks. -/
def convertMessagesGo (msgs : List GMsg) (acc : List AMsg) : List AMsg :=
  match msgs with
  | [] => acc.reverse
  | GMsg.user c :: rest =>
    match acc with
    | { role := "user", content := AContent.str s } :: accTail =>
      convertMessagesGo rest
        ({ role := "user", content := AContent.blocks [ABlock.text s, ABlock.text c] } :: accTail)
    | { role := "user", content := AContent.blocks bs } :: accTail =>
      convertMessagesGo rest
        ({ role := "user", content := AContent.blocks (bs ++ [ABlock.text c]) } :: accTail)
    | _ => convertMessagesGo rest ({ role := "user", content := AContent.str c } :: acc)
  | GMsg.assistant c tcs :: rest =>
    convertMessagesGo (rest.dropWhile isToolMsg)
      (convertStepAcc c tcs ((rest.takeWhile isToolMsg).map toolResultBlock) acc)
  | GMsg.tool _ _ _ :: rest => convertMessagesGo rest acc
termination_by msgs.length
decreasing_by
  · simp only [List.length_cons]; omega
  · simp only [List.length_cons]; omega
  · simp only [List.length_cons]; omega
  · have hd : ∀ (l : List GMsg), (List.dropWhile isToolMsg l).length ≤ l.length := by
      intro l
      induction l with
      | nil => simp [List.dropWhile]
      | cons a t ih =>
        simp only [List.dropWhile]
        cases isToolMsg a
        · simp
        · simp only [List.dropWhile, List.length_cons]
          exact Nat.le_succ_of_le ih
    have := hd rest
    simp only [List.length_cons]
    omega
  · simp only [List.length_cons]; omega

/-- Shallow embedding of `AnthropicProvider._convert_messages`. -/
def convert_messages (msgs : List GMsg) : List AMsg :=
  convertMessagesGo msgs []

/-- Ids of the `tool_use` blocks of a message content, in order. -/
def toolUseIds : AContent → List String
  | AContent.str _ => []
  | AContent.blocks l =>
    l.filterMap (fun b => match b with | ABlock.toolUse i _ _ => some i | _ => none)

/-- Ids of the `tool_result` blocks of a message content, in order. -/
def toolResultIds : AContent → List String
  | AContent.str _ => []
  | AContent.blocks l =>
    l.filterMap (fun b => match b with | ABlock.toolResult i _ _ => some i | _ => none)

/-- The shape of a wire message as far as pairing is concerned: its role,
its `tool_use` ids and its `tool_result` ids, each in block order. -/
def msgSig (m : AMsg) : String × List String × List String :=
  (m.role, toolUseIds m.content, toolResultIds m.content)

/-- Pairing discipline on message shapes: every assistant entry carrying
`tool_use` ids is immediately followed by a `user` entry whose
`tool_result` ids are exactly the same ids in the same order, and
`tool_result` ids appear on no other entry. -/
def pairedSigB : List (String × List String × List String) → Bool
  | [] => true
  | (role, useIds, resIds) :: rest =>
    if role = "assistant" then
      if useIds = [] then pairedSigB rest
      else
        match rest with
        | (role2, _, resIds2) :: rest2 =>
          role2 = "user" && resIds2 = useIds && pairedSigB rest2
        | [] => false
    else
      resIds = [] && pairedSigB rest

/-- Pairing discipline on the Anthropic wire format: every assistant
message carrying `tool_use` blocks is immediately followed by a `user`
message whose `tool_result` blocks carry exactly the same ids in the same
order, and `tool_result` blocks appear in no other message. -/
def anthropicPaired (l : List AMsg) : Bool :=
  pairedSigB (l.map msgSig)

/-! ## Fan-out pipeline (`BudgetOrchestrator.process_stream`, stages 3-5) -/

/-- Confidence tier (`app/core/models.py`, `class NivelConfianca`). -/
inductive NivelConfianca where
  | alta
  | media
  | baixa
deriving DecidableEq

/-- A matched SINAPI composition (`app/core/models.py`,
`class ComposicaoSinapi`; the description/unit fields are omitted). -/
structure ComposicaoSinapi where
  codigo : String
  nome : String
  similaridade : ℚ
deriving DecidableEq

/-- Semantic-search outcome (`app/core/models.py`, `class ResultadoBusca`;
alternatives and the validation flag are omitted). -/
structure ResultadoBusca where
  nivel_confianca : NivelConfianca
  melhor_match : Option ComposicaoSinapi
deriving DecidableEq

/-- A base budget item (`app/core/models.py`, `class ItemBase`). -/
structure ItemBase where
  codigo : Int
  nome : String
  descricao : String
  quantidade : ℚ
  unidade : String
deriving DecidableEq

/-- A SINAPI price row (`app/services/spring_client.py`,
`class PrecoComposicao`). -/
structure PrecoComposicao where
  custo_sem_desoneracao : ℚ
  custo_com_desoneracao : ℚ
deriving DecidableEq

/-- One element of `resultados_busca` in the orchestrator: the item tagged
with its stage, joined with its search result. -/
structure SearchOutcome where
  etapa_nome : String
  etapa_codigo : Int
  item : ItemBase
  busca : ResultadoBusca
deriving DecidableEq

/-- An item resolved with match and price (`app/core/models.py`,
`class ItemProcessado`). -/
structure ItemProcessado where
  item_base : ItemBase
  etapa_nome : String
  busca_sinapi : ResultadoBusca
  quantidade_ajustada : ℚ
  preco_unitario : ℚ
  preco_total : ℚ
  problema : Option String
deriving DecidableEq

/-- A stage with resolved items (`app/core/models.py`,
`class EtapaProcessada`). -/
structure EtapaProcessada where
  codigo : Int
  nome : String
  descricao : String
  itens : List ItemProcessado
  valor_total : ℚ
deriving DecidableEq

/-- The distinct matched codes collected into `codigos_para_buscar`
(a Python `set`; embedded as the deduplicated list of matched codes —
the orchestrator issues exactly one pricing call per element). -/
def codigosParaBuscar (rs : List SearchOutcome) : List String :=
  (rs.filterMap (fun r => r.busca.melhor_match.map (fun m => m.codigo))).dedup

/-- The `precos_map` built from the parallel `buscar_preco` calls: one
entry per distinct code, valued by the pricing oracle. -/
def precosMap (priceOf : String → Option PrecoComposicao) (rs : List SearchOutcome) :
    List (String × Option PrecoComposicao) :=
  (codigosParaBuscar rs).map (fun c => (c, priceOf c))

/-- Dictionary lookup `precos_map.get(codigo)` (absent key yields `None`). -/
def precosMapGet (m : List (String × Option PrecoComposicao)) (codigo : String) :
    Option PrecoComposicao :=
  match m.lookup codigo with
  | some p => p
  | none => none

/-- The Python expression
`preco_info.custo_sem_desoneracao or preco_info.custo_com_desoneracao`. -/
def precoUnitarioDe (p : PrecoComposicao) : ℚ :=
  if p.custo_sem_desoneracao = 0 then p.custo_com_desoneracao
  else p.custo_sem_desoneracao

/-- The per-item body of the synthesis loop (`ETAPA 5`, lines 303-357 of
`app/core/orchestrator.py`): price lookup, problem flags, statistics, and
the processed item. `dadosQuantidade` is `dados.quantidade`. -/
def processarResultado (dadosQuantidade : ℚ)
    (pm : List (String × Option PrecoComposicao)) (est : Estatisticas)
    (r : SearchOutcome) : ItemProcessado × Estatisticas :=
  let est := { est with total_itens := est.total_itens + 1 }
  let est :=
    match r.busca.nivel_confianca with
    | NivelConfianca.alta => { est with alta_confianca := est.alta_confianca + 1 }
    | NivelConfianca.media => { est with media_confianca := est.media_confianca + 1 }
    | NivelConfianca.baixa => { est with baixa_confianca := est.baixa_confianca + 1 }
  let resolved : ℚ × Option String × Estatisticas :=
    match r.busca.melhor_match with
    | some m =>
      match precosMapGet pm m.codigo with
      | some preco =>
        (precoUnitarioDe preco, none,
         { est with itens_com_preco := est.itens_com_preco + 1 })
      | none =>
        (0, some "Preço não encontrado para UF/data",
         { est with itens_sem_preco := est.itens_sem_preco + 1 })
    | none =>
      (0, some "Composição SINAPI não encontrada",
       { est with itens_sem_composicao := est.itens_sem_composicao + 1 })
  let preco_unitario := resolved.1
  let problema := resolved.2.1
  let est := resolved.2.2
  let quantidade_ajustada := r.item.quantidade * dadosQuantidade
  let preco_total := preco_unitario * quantidade_ajustada
  ({ item_base := r.item
     etapa_nome := r.etapa_nome
     busca_sinapi := r.busca
     quantidade_ajustada := quantidade_ajustada
     preco_unitario := preco_unitario
     preco_total := preco_total
     problema := problema }, est)

/-- Appending a processed item into `etapas_dict` (keyed by stage name,
insertion-ordered, creating the stage on first use) and adding its total
to the stage total. -/
def addToEtapas (etapas : List EtapaProcessada) (etapaCodigo : Int) (nome : String)
    (ip : ItemProcessado) : List EtapaProcessada :=
  match etapas with
  | [] =>
    [{ codigo := etapaCodigo, nome := nome, descricao := "", itens := [ip]
       valor_total := ip.preco_total }]
  | e :: rest =>
    if e.nome = nome then
      { e with itens := e.itens ++ [ip], valor_total := e.valor_total + ip.preco_total } :: rest
    else
      e :: addToEtapas rest etapaCodigo nome ip

/-- The synthesis fold over `resultados_busca`. -/
def sintetizarFold (dadosQuantidade : ℚ)
    (pm : List (String × Option PrecoComposicao)) :
    List SearchOutcome → List EtapaProcessada → Estatisticas →
    List EtapaProcessada × Estatisticas
  | [], etapas, est => (etapas, est)
  | r :: rest, etapas, est =>
    let pe := processarResultado dadosQuantidade pm est r
    sintetizarFold dadosQuantidade pm rest
      (addToEtapas etapas r.etapa_codigo r.etapa_nome pe.1) pe.2

/-- Result of pipeline stages 4-5 of `BudgetOrchestrator.process_stream`:
the pricing calls issued, the stages, the statistics, and `valor_total`. -/
structure PipelineResult where
  pricing_calls : List String
  etapas : List EtapaProcessada
  estatisticas : Estatisticas
  valor_total : ℚ
deriving DecidableEq

/-- Shallow embedding of stages 4 (parallel pricing with de-duplicated
codes) and 5 (synthesis and aggregation) of
`BudgetOrchestrator.process_stream`, given the joined search results. -/
def pipelineProcess (dadosQuantidade : ℚ) (priceOf : String → Option PrecoComposicao)
    (rs : List SearchOutcome) : PipelineResult :=
  let pm := precosMap priceOf rs
  let folded := sintetizarFold dadosQuantidade pm rs []
    { total_itens := 0, itens_com_preco := 0, itens_sem_composicao := 0
      itens_sem_preco := 0, alta_confianca := 0, media_confianca := 0
      baixa_confianca := 0 }
  { pricing_calls := codigosParaBuscar rs
    etapas := folded.1
    estatisticas := folded.2
    valor_total := (folded.1.map (fun e => e.valor_total)).sum }

/-! ## Agent tools (`app/core/tools.py`) -/

/-- Input item of `processar_itens_orcamento` after normalization
(`{nome, quantidade, unidade, etapa}`; a bare string item is normalized
by `_processar_item` before this point). -/
structure ItemIn where
  nome : String
  quantidade : ℚ
  unidade : String
  etapa : String
deriving DecidableEq

/-- Structured per-item record built by `_processar_item` and stored in
the batch slot (the compact `texto` line is omitted — no claim reads it). -/
structure ItemResultado where
  etapa : String
  nome : String
  descricao : String
  quantidade : ℚ
  unidade : String
  custo_unitario : ℚ
deriving DecidableEq

/-- Shallow embedding of `_processar_item` (`app/core/tools.py`): one
semantic search for the item name and, when a match exists, one pricing
call for the matched code. Returns the structured record together with
the list of pricing calls issued (zero or one per item — never
de-duplicated across items). -/
def processarItem (searchOf : String → ResultadoBusca)
    (priceOf : String → Option PrecoComposicao) (item : ItemIn) :
    ItemResultado × List String :=
  match (searchOf item.nome).melhor_match with
  | none =>
    ({ etapa := item.etapa, nome := item.nome, descricao := ""
       quantidade := item.quantidade, unidade := item.unidade
       custo_unitario := 0 }, [])
  | some m =>
    let preco := priceOf m.codigo
    let custo := match preco with | some p => p.custo_sem_desoneracao | none => 0
    ({ etapa := item.etapa, nome := item.nome
       descricao := "SINAPI " ++ m.codigo ++ " - " ++ m.nome
       quantidade := item.quantidade, unidade := item.unidade
       custo_unitario := custo }, [m.codigo])

/-- Stage data staged for persistence (`app/core/tools.py`, the
`_ultimo_orcamento_processado` entries). -/
structure EtapaDado where
  nome : String
  descricao : String
  itens : List ItemResultado
deriving DecidableEq

/-- The process-wide single-slot batch cache
(`_ultimo_orcamento_processado`). -/
abbrev Slot := Option (List EtapaDado)

/-- Grouping of per-item records by stage name (empty stage name falls
back to "Geral"), preserving first-appearance order, as in
`etapas_dados.setdefault(...)`. -/
def agruparPorEtapa (rs : List ItemResultado) : List (String × List ItemResultado) :=
  rs.foldl
    (fun acc r =>
      let nomeEtapa := if r.etapa = "" then "Geral" else r.etapa
      if acc.any (fun p => p.1 = nomeEtapa) then
        acc.map (fun p => if p.1 = nomeEtapa then (p.1, p.2 ++ [r]) else p)
      else acc ++ [(nomeEtapa, [r])])
    []

/-- Shallow embedding of `handle_processar_itens_orcamento`
(`app/core/tools.py`): on a non-empty item list it processes every item
and overwrites the slot with the grouped batch; on an empty list it
returns an error string and leaves the slot untouched. The returned
triple is (reply text kind, new slot, pricing calls issued). -/
def handleProcessarItens (searchOf : String → ResultadoBusca)
    (priceOf : String → Option PrecoComposicao) (itens : List ItemIn)
    (slot : Slot) : Bool × Slot × List String :=
  if itens = [] then
    (false, slot, [])
  else
    let processed := itens.map (processarItem searchOf priceOf)
    let grupos := agruparPorEtapa (processed.map (fun p => p.1))
    let novoSlot : Slot :=
      some (grupos.map (fun g => { nome := g.1, descricao := "Etapa: " ++ g.1, itens := g.2 }))
    (true, novoSlot, (processed.map (fun p => p.2)).flatten)

/-- The error reply of `handle_salvar_orcamento` when no processed batch
is staged. -/
def MSG_NENHUM_ORCAMENTO : String :=
  "Erro: nenhum orcamento processado. Execute processar_itens_orcamento antes de salvar."

/-- Outcomes of the Spring persistence calls made by
`handle_salvar_orcamento`, as oracles: stage creation and item insertion
are indexed by the stage position in the batch. -/
structure SpringOutcomes where
  criar_obra : Option Nat
  criar_orcamento : Option Nat
  criar_etapa : Nat → Option Nat
  adicionar_itens : Nat → Bool

/-- The stage loop of `handle_salvar_orcamento`: returns
(stages created, items created, error messages). -/
def salvarEtapasLoop (sp : SpringOutcomes) (etapas : List EtapaDado) : Nat × Nat × List String :=
  (List.range etapas.length).foldl
    (fun acc idx =>
      match etapas[idx]? with
      | none => acc
      | some etapa =>
        match sp.criar_etapa idx with
        | none => (acc.1, acc.2.1, acc.2.2 ++ ["Falha ao criar etapa " ++ etapa.nome])
        | some _ =>
          if etapa.itens = [] then (acc.1 + 1, acc.2.1, acc.2.2)
          else if sp.adicionar_itens idx then
            (acc.1 + 1, acc.2.1 + etapa.itens.length, acc.2.2)
          else
            (acc.1 + 1, acc.2.1,
             acc.2.2 ++ ["Falha ao adicionar itens na etapa " ++ etapa.nome]))
    (0, 0, [])

/-- Shallow embedding of `handle_salvar_orcamento` (`app/core/tools.py`):
returns the reply text and the slot after the call. The slot is cleared
only on the path that reaches the stage loop; the early returns (empty
slot, `criar_obra` failure, `criar_orcamento` failure) leave it as is.
The success summary omits the created obra/orcamento codes that the
source interpolates into the text (no claim reads them); the error
replies are verbatim. -/
def handleSalvarOrcamento (sp : SpringOutcomes) (slot : Slot) : String × Slot :=
  match slot with
  | none => (MSG_NENHUM_ORCAMENTO, slot)
  | some etapas =>
    if etapas = [] then (MSG_NENHUM_ORCAMENTO, slot)
    else
      match sp.criar_obra with
      | none => ("Erro: falha ao criar obra", slot)
      | some _ =>
        match sp.criar_orcamento with
        | none => ("Erro: falha ao criar orcamento", slot)
        | some _ =>
          let loop := salvarEtapasLoop sp etapas
          let base := "Salvo! etapas:" ++ toString loop.1 ++ "/" ++
            toString etapas.length ++ " itens:" ++ toString loop.2.1
          let resultado :=
            if loop.2.2 = [] then base
            else base ++ " Erros: " ++ String.intercalate "; " loop.2.2
          (resultado, none)

/-! ## Conversational state machine (`app/core/conversation.py`,
`ConversationalOrchestrator.process_stream`) -/

/-- Field-value source (`app/core/models.py`, `class FonteCampo`). -/
inductive FonteCampo where
  | usuario
  | padrao
  | inferido
  | confirmado
deriving DecidableEq

/-- Conversation phase (`app/core/models.py`, `class FaseConversacao`). -/
inductive FaseConversacao where
  | coleta
  | confirmacao
  | processamento
  | completo
  | erro
deriving DecidableEq

/-- Per-field state (`app/core/models.py`, `class CampoInfo`). Field
values are kept abstract as strings: the state machine only tests them
for presence (`valor is None`). -/
structure CampoInfo where
  nome : String
  valor : Option String
  fonte : FonteCampo
  confianca : ℚ
  confirmado : Bool
  obrigatorio : Bool
deriving DecidableEq

/-- Session state (`app/core/models.py`, `class EstadoConversacao`);
`campos` is the insertion-ordered field dictionary, embedded as an
association list. Timestamps and the message history are omitted (no
claim reads them; expiry is modelled as session loss, not a transition). -/
structure EstadoConversacao where
  fase : FaseConversacao
  campos : List (String × CampoInfo)
  campos_pendentes : List String
  nome_obra : Option String
deriving DecidableEq

/-- `CAMPOS_OBRIGATORIOS` (`app/core/conversation.py`). -/
def CAMPOS_OBRIGATORIOS : List String := ["uf", "tipo_construtivo", "padrao_construtivo"]

/-- The names and (stringified) values of `CAMPOS_COM_PADRAO`
(`app/core/conversation.py`); the month/year lambdas are evaluated at
session creation, so the concrete values are parameters here. -/
def camposComPadraoInit (mesAtual anoAtual : String) : List (String × String) :=
  [("quantidade", "1"), ("mes_referencia", mesAtual), ("ano_referencia", anoAtual)]

/-- Insertion-ordered dictionary write `sessao.campos[campo] = info`. -/
def campoSet (campos : List (String × CampoInfo)) (nome : String) (info : CampoInfo) :
    List (String × CampoInfo) :=
  if campos.any (fun p => p.1 = nome) then
    campos.map (fun p => if p.1 = nome then (nome, info) else p)
  else
    campos ++ [(nome, info)]

/-- Dictionary read with `in`-test semantics. -/
def campoGet (campos : List (String × CampoInfo)) (nome : String) : Option CampoInfo :=
  campos.lookup nome

/-- Shallow embedding of `ConversationManager.criar_sessao`: defaults are
installed unconfirmed with source `padrao`, and the required fields are
marked pending. -/
def criarSessao (mesAtual anoAtual : String) (nome_obra : Option String) :
    EstadoConversacao :=
  { fase := FaseConversacao.coleta
    campos := (camposComPadraoInit mesAtual anoAtual).map
      (fun p => (p.1,
        { nome := p.1, valor := some p.2, fonte := FonteCampo.padrao
          confianca := 1, confirmado := false, obrigatorio := false }))
    campos_pendentes := CAMPOS_OBRIGATORIOS
    nome_obra := nome_obra }

/-- Shallow embedding of `ConversationManager.atualizar_campo`: replaces
the field, marks it confirmed only when the source says so, and removes
the field from the pending list. -/
def atualizarCampo (s : EstadoConversacao) (campo : String) (valor : Option String)
    (fonte : FonteCampo) (confianca : ℚ) : EstadoConversacao :=
  { s with
    campos := campoSet s.campos campo
      { nome := campo, valor := valor, fonte := fonte, confianca := confianca
        confirmado := fonte = FonteCampo.confirmado
        obrigatorio := campo ∈ CAMPOS_OBRIGATORIOS }
    campos_pendentes := s.campos_pendentes.erase campo }

/-- Shallow embedding of `ConversationManager.confirmar_todos_defaults`. -/
def confirmarTodosDefaults (s : EstadoConversacao) : EstadoConversacao :=
  { s with
    campos := s.campos.map (fun p =>
      if p.2.fonte = FonteCampo.padrao ∧ p.2.confirmado = false then
        (p.1, { p.2 with confirmado := true, fonte := FonteCampo.confirmado })
      else p) }

/-- Shallow embedding of
`ConversationManager.obter_campos_com_padrao_nao_confirmados`. -/
def camposComPadraoNaoConfirmados (s : EstadoConversacao) : List (String × CampoInfo) :=
  s.campos.filter (fun p => p.2.fonte = FonteCampo.padrao ∧ p.2.confirmado = false)

/-- The static question table `PERGUNTAS_CAMPOS`
(`app/core/conversation.py`), reduced to the prompt text (input kinds and
choice lists are not read by any claim). -/
def perguntaParaCampo (campo : String) : Option String :=
  if campo = "uf" then some "Em qual estado será construída a obra?"
  else if campo = "tipo_construtivo" then some "Qual tipo de construção residencial?"
  else if campo = "padrao_construtivo" then some "Qual o padrão construtivo?"
  else if campo = "quantidade" then some "Quantas unidades serão construídas?"
  else if campo = "mes_referencia" then some "Qual o mês de referência para os preços?"
  else if campo = "ano_referencia" then some "Qual o ano de referência para os preços?"
  else none

/-- Shallow embedding of `ConversationalOrchestrator._emitir_pergunta`. -/
def emitirPergunta (campo : String) : EventoStream :=
  match perguntaParaCampo campo with
  | some pergunta => { etapa := "question", mensagem := pergunta }
  | none => { etapa := "question", mensagem := "Por favor, informe o valor para " ++ campo }

/-- One extracted field as handed over by
`extrair_informacoes_inteligente` (`campos_extraidos` entries). -/
structure CampoExtraido where
  valor : Option String
  fonte : FonteCampo
  confianca : ℚ
deriving DecidableEq

/-- The extraction outcome consumed by step 4 of
`ConversationalOrchestrator.process_stream`. The extractor itself is an
external input here: the state machine must keep its invariants for every
possible outcome. -/
structure ExtracaoIn where
  sucesso : Bool
  campos_extraidos : List (String × CampoExtraido)
  campos_faltantes : List String
  campos_com_padrao : List (String × String)
  tipo_nao_suportado : Option String
deriving DecidableEq

/-- One call's inputs to `ConversationalOrchestrator.process_stream`:
the request fields, plus the oracle outcomes of the collaborators used
during that call (`_normalizar_valor_campo`, the extractor,
`construir_dados_extraidos` and the inner budget processing). -/
structure ConvIn where
  texto_usuario : Option String
  resposta_campo : Option (String × String)
  confirmacao : Option String
  nome_obra : Option String
  normalizado : Option String
  extracao : ExtracaoIn
  dados_ok : Bool
  eventos_processamento : List EventoStream
deriving DecidableEq

/-- Python truthiness of an optional string (`if texto_usuario`,
`if campo`). -/
def truthyStr : Option String → Bool
  | some s => s ≠ ""
  | none => false

/-- The session update of step 4 (successful extraction): extracted
fields are written with their extractor-reported sources, default-valued
fields are added only when absent or empty, and the pending list is
replaced by the extractor's missing-fields list. -/
def aplicarExtracao (s : EstadoConversacao) (ex : ExtracaoIn) : EstadoConversacao :=
  let s := ex.campos_extraidos.foldl
    (fun acc p => atualizarCampo acc p.1 p.2.valor p.2.fonte p.2.confianca) s
  let s := ex.campos_com_padrao.foldl
    (fun acc p =>
      match campoGet acc.campos p.1 with
      | some info =>
        if info.valor = none then
          atualizarCampo acc p.1 (some p.2) FonteCampo.padrao 1
        else acc
      | none => atualizarCampo acc p.1 (some p.2) FonteCampo.padrao 1) s
  { s with campos_pendentes := ex.campos_faltantes }

/-- Steps 2-8 of `ConversationalOrchestrator.process_stream`
(`app/core/orchestrator.py`, lines 650-897), as one transition on a live
session. Early returns in the source become early result values here; the
emitted events are collected in order. Session creation/resumption
events (step 1) are prepended by the caller-facing wrapper below. -/
def convProcessCore (s : EstadoConversacao) (ins : ConvIn) :
    EstadoConversacao × List EventoStream :=
  -- nome_obra update
  let s := match ins.nome_obra with
    | some n => { s with nome_obra := some n }
    | none => s
  -- step 2: resposta_campo
  match ins.resposta_campo with
  | some rc =>
    if truthyStr (some rc.1) then
      match ins.normalizado with
      | some v =>
        let s := atualizarCampo s rc.1 (some v) FonteCampo.usuario 1
        convAfterResposta s ins [{ etapa := "field_updated", mensagem := "Campo " ++ rc.1 ++ " atualizado" }]
      | none =>
        (s, [{ etapa := "error", mensagem := "Valor inválido para campo " ++ rc.1 },
             emitirPergunta rc.1])
    else convAfterResposta s ins []
  | none => convAfterResposta s ins []
where
  /-- Steps 3-8, after the answer handling. -/
  convAfterResposta (s : EstadoConversacao) (ins : ConvIn) (evs : List EventoStream) :
      EstadoConversacao × List EventoStream :=
    -- step 3: confirmacao
    if ins.confirmacao = some "confirmar" then
      if s.fase = FaseConversacao.coleta then
        let s := confirmarTodosDefaults s
        convAfterConfirmacao s ins
          (evs ++ [{ etapa := "user_confirmed", mensagem := "Valores padrão confirmados." }])
      else if s.fase = FaseConversacao.confirmacao then
        let s := { s with fase := FaseConversacao.processamento }
        convAfterConfirmacao s ins
          (evs ++ [{ etapa := "user_confirmed", mensagem := "Dados confirmados. Iniciando processamento..." }])
      else convAfterConfirmacao s ins evs
    else if ins.confirmacao = some "corrigir" then
      ({ s with fase := FaseConversacao.coleta },
       evs ++ [{ etapa := "correction_needed", mensagem := "Qual campo deseja corrigir?" }])
    else convAfterConfirmacao s ins evs
  /-- Steps 4-8, after the confirmation handling. -/
  convAfterConfirmacao (s : EstadoConversacao) (ins : ConvIn) (evs : List EventoStream) :
      EstadoConversacao × List EventoStream :=
    -- step 4: initial extraction
    if s.fase = FaseConversacao.coleta ∧ truthyStr ins.texto_usuario
        ∧ ins.resposta_campo = none then
      let evs := evs ++ [{ etapa := "extraction_start", mensagem := "Analisando seu pedido..." }]
      if ins.extracao.sucesso = false then
        (s, evs ++ [{ etapa := "error", mensagem := "Erro na extração" }])
      else
        let s := aplicarExtracao s ins.extracao
        let evs := evs ++
          (match ins.extracao.tipo_nao_suportado with
           | some tipo => [{ etapa := "unsupported_type", mensagem := "Tipo " ++ tipo ++ " não é suportado." }]
           | none => []) ++
          [{ etapa := "extraction_partial", mensagem := "Informações identificadas" }]
        convAfterExtracao s ins evs
    else convAfterExtracao s ins evs
  /-- Steps 5-8, after extraction. -/
  convAfterExtracao (s : EstadoConversacao) (ins : ConvIn) (evs : List EventoStream) :
      EstadoConversacao × List EventoStream :=
    -- step 5: pending required fields
    match s.campos_pendentes with
    | campo :: _ => (s, evs ++ [emitirPergunta campo])
    | [] =>
      -- step 6: unconfirmed defaults
      if camposComPadraoNaoConfirmados s ≠ [] ∧ s.fase = FaseConversacao.coleta then
        (s, evs ++ [{ etapa := "confirm_defaults", mensagem := "Confirme os valores padrão que serão utilizados:" }])
      -- step 7: summary confirmation
      else if s.fase = FaseConversacao.coleta then
        ({ s with fase := FaseConversacao.confirmacao },
         evs ++ [{ etapa := "confirm_summary", mensagem := "Confirme os dados do orçamento:" }])
      -- step 8: processing
      else if s.fase = FaseConversacao.processamento then
        if ins.dados_ok = false then
          (s, evs ++ [{ etapa := "error", mensagem := "Dados incompletos para processamento" }])
        else
          ({ s with fase := FaseConversacao.completo }, evs ++ ins.eventos_processamento)
      else (s, evs)

/-- Shallow embedding of `ConversationalOrchestrator.process_stream` on a
live session: step 1 emits the session event, then the core runs. -/
def convProcessStream (s : EstadoConversacao) (ins : ConvIn) (isNew : Bool) :
    EstadoConversacao × List EventoStream :=
  let ev0 : EventoStream :=
    if isNew then { etapa := "session_created", mensagem := "Sessão criada" }
    else { etapa := "session_resumed", mensagem := "Sessão retomada" }
  let core := convProcessCore s ins
  (core.1, ev0 :: core.2)

/-- A session has no silently usable default: no field carries
`fonte = padrao` while unconfirmed. -/
def semPadraoNaoConfirmado (s : EstadoConversacao) : Prop :=
  ∀ p ∈ s.campos, ¬(p.2.fonte = FonteCampo.padrao ∧ p.2.confirmado = false)

instance (s : EstadoConversacao) : Decidable (semPadraoNaoConfirmado s) := by
  unfold semPadraoNaoConfirmado; infer_instance

/-- Session states reachable through the orchestrator: a fresh session
followed by any sequence of `process_stream` calls with arbitrary inputs
and collaborator outcomes. -/
inductive ReachableSession : EstadoConversacao → Prop where
  | init (mesAtual anoAtual : String) (nome_obra : Option String) :
      ReachableSession (criarSessao mesAtual anoAtual nome_obra)
  | step (s : EstadoConversacao) (ins : ConvIn)
      (h : ReachableSession s) : ReachableSession (convProcessCore s ins).1

/-! ## Stream predicates and concrete fixtures -/

/-- No event of any kind follows a terminal (`complete`/`error`) event. -/
def terminalIsLast (evs : List EventoStream) : Prop :=
  ∀ pre e post, evs = pre ++ e :: post → isTerminalEvent e = true → post = []

/-- A scripted provider reply that always requests one tool call. -/
def demoReply : LLMResponseWithTools :=
  { content := some "ok"
    tool_calls := [{ id := "call_1", name := "processar_itens_orcamento", arguments := [] }]
    stop_reason := StopReason.toolUse }

/-- A provider script that requests a tool call on every iteration. -/
def demoScript : Nat → Except String LLMResponseWithTools :=
  fun _ => Except.ok demoReply

/-- A handler table with no registered tools (every call yields the
`tool desconhecida` error result, which the loop still pairs). -/
def demoHandlers : String → Option (Args → Except String String) := fun _ => none

/-- An HTTP script answering 429 (with a retry-after header), 429
(without), then 200. -/
def scriptRetryTwice : Nat → HttpResp :=
  fun n => if n = 0 then { status := 429, retry_after := some 5 }
    else if n = 1 then { status := 429, retry_after := none }
    else { status := 200, retry_after := none }

/-- An HTTP script answering 429 once, then 200. -/
def scriptRetryOnce : Nat → HttpResp :=
  fun n => if n = 0 then { status := 429, retry_after := none }
    else { status := 200, retry_after := none }

/-- A search oracle under which every item name resolves to SINAPI code
87905. -/
def searchSameCode : String → ResultadoBusca :=
  fun _ => { nivel_confianca := NivelConfianca.alta
             melhor_match := some { codigo := "87905", nome := "ALVENARIA", similaridade := 9/10 } }

/-- A pricing oracle with a fixed price for code 87905. -/
def priceFixed : String → Option PrecoComposicao :=
  fun c => if c = "87905" then some { custo_sem_desoneracao := 50, custo_com_desoneracao := 48 }
    else none

/-- Two distinct items that resolve to the same SINAPI code under
`searchSameCode`. -/
def doisItensMesmoCodigo : List ItemIn :=
  [{ nome := "alvenaria de vedacao", quantidade := 10, unidade := "m2", etapa := "Alvenaria" },
   { nome := "alvenaria estrutural", quantidade := 5, unidade := "m2", etapa := "Alvenaria" }]

/-- A staged one-stage batch for the persistence counterexample. -/
def slotComBatch : Slot :=
  some [{ nome := "Fundacao", descricao := "Etapa: Fundacao"
          itens := [{ etapa := "Fundacao", nome := "escavacao", descricao := ""
                      quantidade := 3, unidade := "m3", custo_unitario := 20 }] }]

/-- Spring outcomes where project creation fails. -/
def springObraFalha : SpringOutcomes :=
  { criar_obra := none, criar_orcamento := some 1
    criar_etapa := fun _ => some 10, adicionar_itens := fun _ => true }

/-- Spring outcomes where everything succeeds except the first stage
insertion. -/
def springEtapaFalha : SpringOutcomes :=
  { criar_obra := some 7, criar_orcamento := some 8
    criar_etapa := fun idx => if idx = 0 then none else some 10
    adicionar_itens := fun _ => true }

/-- Extraction outcome supplying the three required fields from the user
text and leaving nothing pending. -/
def extracaoCompleta : ExtracaoIn :=
  { sucesso := true
    campos_extraidos :=
      [("uf", { valor := some "MA", fonte := FonteCampo.usuario, confianca := 1 }),
       ("tipo_construtivo", { valor := some "RESIDENCIAL_CASA", fonte := FonteCampo.usuario, confianca := 1 }),
       ("padrao_construtivo", { valor := some "BASICO", fonte := FonteCampo.usuario, confianca := 1 })]
    campos_faltantes := []
    campos_com_padrao := []
    tipo_nao_suportado := none }

/-- An extraction outcome that is never consulted (calls without user
text). -/
def extracaoVazia : ExtracaoIn :=
  { sucesso := true, campos_extraidos := [], campos_faltantes := []
    campos_com_padrao := [], tipo_nao_suportado := none }

/-- Call 1 of the C2 scenario: initial message, full extraction. -/
def convIn1 : ConvIn :=
  { texto_usuario := some "2 casas basico no MA"
    resposta_campo := none, confirmacao := none, nome_obra := none
    normalizado := none, extracao := extracaoCompleta
    dados_ok := true, eventos_processamento := [] }

/-- Call 2 of the C2 scenario: the user confirms the defaults. -/
def convIn2 : ConvIn :=
  { texto_usuario := none
    resposta_campo := none, confirmacao := some "confirmar", nome_obra := none
    normalizado := none, extracao := extracaoVazia
    dados_ok := true, eventos_processamento := [] }

/-- Call 3 of the C2 scenario: the user confirms the summary; the budget
data assembly then fails, so the call returns while the session is in the
processing phase. -/
def convIn3 : ConvIn :=
  { texto_usuario := none
    resposta_campo := none, confirmacao := some "confirmar", nome_obra := none
    normalizado := none, extracao := extracaoVazia
    dados_ok := false, eventos_processamento := [] }

/-- The session state after the three C2 scenario calls. -/
def sessaoProcessamento : EstadoConversacao :=
  (convProcessCore (convProcessCore (convProcessCore
    (criarSessao "10" "2025" none) convIn1).1 convIn2).1 convIn3).1

/-- An invalid answer to the UF question (`validar_uf` returns `None` for
a string that names no Brazilian state, e.g. "xx"). -/
def convInRespostaInvalida : ConvIn :=
  { texto_usuario := none
    resposta_campo := some ("uf", "xx")
    confirmacao := none, nome_obra := none
    normalizado := none, extracao := extracaoVazia
    dados_ok := true, eventos_processamento := [] }

/-- The unit price an item receives once its matched code is priced: the
oracle's price row passed through the `or`-fallback, or 0 when pricing
found nothing. -/
def precoResolvido (priceOf : String → Option PrecoComposicao) (codigo : String) : ℚ :=
  match priceOf codigo with
  | some p => precoUnitarioDe p
  | none => 0

/-- A two-stage search-result list for concrete pipeline runs: two items
in the same stage resolving to the same code, one unmatched item in
another stage. -/
def rsDemo : List SearchOutcome :=
  [{ etapa_nome := "Alvenaria", etapa_codigo := 1
     item := { codigo := 11, nome := "alvenaria de vedacao", descricao := ""
               quantidade := 10, unidade := "m2" }
     busca := { nivel_confianca := NivelConfianca.alta
                melhor_match := some { codigo := "87905", nome := "ALVENARIA", similaridade := 9/10 } } },
   { etapa_nome := "Alvenaria", etapa_codigo := 1
     item := { codigo := 12, nome := "alvenaria estrutural", descricao := ""
               quantidade := 5, unidade := "m2" }
     busca := { nivel_confianca := NivelConfianca.media
                melhor_match := some { codigo := "87905", nome := "ALVENARIA", similaridade := 7/10 } } },
   { etapa_nome := "Pintura", etapa_codigo := 2
     item := { codigo := 13, nome := "pintura especial", descricao := ""
               quantidade := 1, unidade := "m2" }
     busca := { nivel_confianca := NivelConfianca.baixa, melhor_match := none } }]

/-- A one-stage batch with no items, for the persistence witness. -/
def batchFundacao : List EtapaDado :=
  [{ nome := "Fundacao", descricao := "Etapa: Fundacao", itens := [] }]

/-! ## Theorems -/

/-- C9: `Estatisticas.taxa_sucesso` is total — it returns 0 when
`total_itens` is 0 (no division happens there), and for positive
`total_itens` it equals `(itens_com_preco / total_itens) * 100`. -/
theorem C9_taxa_sucesso_total (e : Estatisticas) :
    (e.total_itens = 0 → e.taxa_sucesso = 0) ∧
    (0 < e.total_itens →
      e.taxa_sucesso * (e.total_itens : ℚ) = (e.itens_com_preco : ℚ) * 100) := by
  constructor
  · intro h
    simp [Estatisticas.taxa_sucesso, h]
  · intro h
    have hne : e.total_itens ≠ 0 := by omega
    have hq : (e.total_itens : ℚ) ≠ 0 := by exact_mod_cast hne
    simp only [Estatisticas.taxa_sucesso, if_neg hne]
    field_simp

/-- C9 witness: for 3 priced items out of 4 the success rate is 75%. -/
theorem C9_taxa_sucesso_total_witness :
    Estatisticas.taxa_sucesso
      { total_itens := 4, itens_com_preco := 3, itens_sem_composicao := 0
        itens_sem_preco := 1, alta_confianca := 2, media_confianca := 1
        baixa_confianca := 1 } * 4 = 300 := by
  have h := (C9_taxa_sucesso_total
    { total_itens := 4, itens_com_preco := 3, itens_sem_composicao := 0
      itens_sem_preco := 1, alta_confianca := 2, media_confianca := 1
      baixa_confianca := 1 }).2 (by norm_num)
  norm_num at h ⊢
  exact h

/-- C5 counterexample: an Anthropic response whose content carries a
`tool_use` block but whose `stop_reason` is `"end_turn"` parses to a
reply with one tool call and stop reason `endTurn` — not `toolUse` as the
claim requires whenever tool calls are present. -/
theorem C5_counterexample :
    (anthropicParseResponse
      { content := [ARespBlock.toolUse "toolu_1" "f" []]
        stop_reason := some "end_turn" }).tool_calls =
      [ToolCall.mk "toolu_1" "f" []] ∧
    (anthropicParseResponse
      { content := [ARespBlock.toolUse "toolu_1" "f" []]
        stop_reason := some "end_turn" }).stop_reason ≠ StopReason.toolUse := by
  constructor
  · rfl
  · decide

/-- C5 amended: the Anthropic parser normalizes the stop reason from the
vendor `stop_reason` string alone (`toolUse` iff the vendor says
`tool_use`, `maxTokens` iff it says `max_tokens`, regardless of parsed
tool calls); the OpenAI parser returns `maxTokens` iff the vendor signals
truncation, and otherwise `toolUse` exactly when the vendor signals
`tool_calls` or the parsed reply contains at least one tool call. -/
theorem C5_stop_reason_normalization (a : AnthropicData) (o : OpenAIData) :
    ((anthropicParseResponse a).stop_reason = StopReason.toolUse ↔
      a.stop_reason.getD "end_turn" = "tool_use") ∧
    ((anthropicParseResponse a).stop_reason = StopReason.maxTokens ↔
      a.stop_reason.getD "end_turn" = "max_tokens") ∧
    ((openaiParseResponse o).stop_reason = StopReason.maxTokens ↔
      o.finish_reason.getD "stop" = "length") ∧
    (o.finish_reason.getD "stop" ≠ "length" →
      ((openaiParseResponse o).stop_reason = StopReason.toolUse ↔
        (o.finish_reason.getD "stop" = "tool_calls" ∨ o.tool_calls ≠ []))) := by
  refine ⟨?_, ?_, ?_, ?_⟩ <;>
    · simp only [anthropicParseResponse, openaiParseResponse]
      split_ifs <;> simp_all [List.isEmpty_iff, List.map_eq_nil_iff]

/-- C5 witness: a truncated OpenAI response normalizes to `maxTokens`. -/
theorem C5_stop_reason_normalization_witness :
    (openaiParseResponse
      { content := none, tool_calls := [], finish_reason := some "length" }).stop_reason =
      StopReason.maxTokens := by
  exact (C5_stop_reason_normalization
    { content := [], stop_reason := none }
    { content := none, tool_calls := [], finish_reason := some "length" }).2.2.1.mpr (by decide)

/-- Unfolding of one retrying step of the Anthropic retry loop. -/
theorem anthropicRetryAux_retry (script : Nat → HttpResp) (rem att : Nat)
    (hrem : 0 < rem) (h : retryableStatus (script att)) (hatt : att < MAX_RETRIES) :
    anthropicRetryAux script rem att =
      { outcome := (anthropicRetryAux script (rem - 1) (att + 1)).outcome
        requests := (anthropicRetryAux script (rem - 1) (att + 1)).requests + 1
        delays := (script att).retry_after.getD (RETRY_BASE_DELAY * 2 ^ att) ::
          (anthropicRetryAux script (rem - 1) (att + 1)).delays } := by
  obtain ⟨r, rfl⟩ : ∃ r, rem = r + 1 := ⟨rem - 1, by omega⟩
  rw [anthropicRetryAux]
  simp only [Nat.add_sub_cancel]
  rw [if_pos ⟨h, hatt⟩]

/-- Unfolding of the final (non-retrying) step of the Anthropic retry
loop. -/
theorem anthropicRetryAux_stop (script : Nat → HttpResp) (rem att : Nat)
    (hrem : 0 < rem) (h : ¬(retryableStatus (script att) ∧ att < MAX_RETRIES)) :
    anthropicRetryAux script rem att =
      (if (script att).status ≥ 400 then
        { outcome := CallOutcome.raised (script att).status, requests := 1, delays := [] }
      else
        { outcome := CallOutcome.returned (script att).status, requests := 1, delays := [] }) := by
  obtain ⟨r, rfl⟩ : ∃ r, rem = r + 1 := ⟨rem - 1, by omega⟩
  rw [anthropicRetryAux]
  simp only []
  rw [if_neg (by exact fun hc => h ⟨hc.1, hc.2⟩)]

/-- C6 counterexample: on a network that answers 429 once and then 200,
the OpenAI adapter's tool-calling completion raises immediately after a
single request — the 429 is not retried — while the Anthropic adapter
retries and succeeds. -/
theorem C6_counterexample :
    (openaiCompleteRun scriptRetryOnce).outcome = CallOutcome.raised 429 ∧
    (openaiCompleteRun scriptRetryOnce).requests = 1 ∧
    (anthropicPostWithRetry scriptRetryOnce).outcome = CallOutcome.returned 200 := by
  refine ⟨by decide, by decide, ?_⟩
  rw [anthropicPostWithRetry,
    anthropicRetryAux_retry scriptRetryOnce (MAX_RETRIES + 1) 0 (by norm_num)
      (by decide) (by decide),
    anthropicRetryAux_stop scriptRetryOnce (MAX_RETRIES + 1 - 1) (0 + 1) (by norm_num [MAX_RETRIES])
      (by decide)]
  decide

/-- C6 amended: the Anthropic adapter retries HTTP 429/529 up to
`MAX_RETRIES` times with delay `retry-after` when the header is present
and `RETRY_BASE_DELAY * 2 ^ attempt` otherwise, surfaces any other
4xx/5xx immediately without retry, and raises after exhausting the
retries; the OpenAI adapter issues exactly one request and surfaces every
4xx/5xx immediately, retrying nothing. -/
theorem C6_retry_policy (script : Nat → HttpResp) :
    ((openaiCompleteRun script).requests = 1 ∧
      ((script 0).status ≥ 400 →
        (openaiCompleteRun script).outcome = CallOutcome.raised (script 0).status)) ∧
    (∀ k, k ≤ MAX_RETRIES → (∀ i, i < k → retryableStatus (script i)) →
      ¬retryableStatus (script k) →
      anthropicPostWithRetry script =
        { outcome :=
            if (script k).status ≥ 400 then CallOutcome.raised (script k).status
            else CallOutcome.returned (script k).status
          requests := k + 1
          delays := (List.range k).map
            (fun i => (script i).retry_after.getD (RETRY_BASE_DELAY * 2 ^ i)) }) ∧
    ((∀ i, i ≤ MAX_RETRIES → retryableStatus (script i)) →
      anthropicPostWithRetry script =
        { outcome := CallOutcome.raised (script MAX_RETRIES).status
          requests := MAX_RETRIES + 1
          delays := (List.range MAX_RETRIES).map
            (fun i => (script i).retry_after.getD (RETRY_BASE_DELAY * 2 ^ i)) }) := by
  refine ⟨⟨?_, ?_⟩, ?_, ?_⟩
  · simp only [openaiCompleteRun]
    split_ifs <;> rfl
  · intro h
    simp only [openaiCompleteRun, if_pos h]
  · intro k hk h hstop
    unfold MAX_RETRIES at hk
    rw [anthropicPostWithRetry]
    interval_cases k
    · rw [anthropicRetryAux_stop script (MAX_RETRIES + 1) 0 (by norm_num)
        (by exact fun hc => hstop hc.1)]
      split_ifs <;> simp_all
    · rw [anthropicRetryAux_retry script (MAX_RETRIES + 1) 0 (by norm_num)
          (h 0 (by omega)) (by norm_num [MAX_RETRIES]),
        anthropicRetryAux_stop script (MAX_RETRIES + 1 - 1) (0 + 1) (by norm_num [MAX_RETRIES])
          (by exact fun hc => hstop hc.1)]
      split_ifs <;> simp_all [List.range_succ]
    · rw [anthropicRetryAux_retry script (MAX_RETRIES + 1) 0 (by norm_num)
          (h 0 (by omega)) (by norm_num [MAX_RETRIES]),
        anthropicRetryAux_retry script (MAX_RETRIES + 1 - 1) (0 + 1) (by norm_num [MAX_RETRIES])
          (h 1 (by omega)) (by norm_num [MAX_RETRIES]),
        anthropicRetryAux_stop script (MAX_RETRIES + 1 - 1 - 1) (0 + 1 + 1)
          (by norm_num [MAX_RETRIES]) (by exact fun hc => hstop hc.1)]
      split_ifs <;> simp_all [List.range_succ]
    · rw [anthropicRetryAux_retry script (MAX_RETRIES + 1) 0 (by norm_num)
          (h 0 (by omega)) (by norm_num [MAX_RETRIES]),
        anthropicRetryAux_retry script (MAX_RETRIES + 1 - 1) (0 + 1) (by norm_num [MAX_RETRIES])
          (h 1 (by omega)) (by norm_num [MAX_RETRIES]),
        anthropicRetryAux_retry script (MAX_RETRIES + 1 - 1 - 1) (0 + 1 + 1)
          (by norm_num [MAX_RETRIES]) (h 2 (by omega)) (by norm_num [MAX_RETRIES]),
        anthropicRetryAux_stop script (MAX_RETRIES + 1 - 1 - 1 - 1) (0 + 1 + 1 + 1)
          (by norm_num [MAX_RETRIES]) (by norm_num [MAX_RETRIES])]
      split_ifs <;> simp_all [List.range_succ]
  · intro h
    have h400 : (script 3).status ≥ 400 := by
      rcases h 3 (by norm_num [MAX_RETRIES]) with h429 | h529 <;> omega
    rw [anthropicPostWithRetry,
      anthropicRetryAux_retry script (MAX_RETRIES + 1) 0 (by norm_num)
        (h 0 (by norm_num [MAX_RETRIES])) (by norm_num [MAX_RETRIES]),
      anthropicRetryAux_retry script (MAX_RETRIES + 1 - 1) (0 + 1) (by norm_num [MAX_RETRIES])
        (h 1 (by norm_num [MAX_RETRIES])) (by norm_num [MAX_RETRIES]),
      anthropicRetryAux_retry script (MAX_RETRIES + 1 - 1 - 1) (0 + 1 + 1)
        (by norm_num [MAX_RETRIES]) (h 2 (by norm_num [MAX_RETRIES])) (by norm_num [MAX_RETRIES]),
      anthropicRetryAux_stop script (MAX_RETRIES + 1 - 1 - 1 - 1) (0 + 1 + 1 + 1)
        (by norm_num [MAX_RETRIES]) (by norm_num [MAX_RETRIES])]
    rw [if_pos (by simpa using h400)]
    simp [List.range_succ, MAX_RETRIES]

/-- C6 witness: two 429 responses (the first with a retry-after header of
5 seconds) followed by a 200 yield a success after exactly two delayed
retries, sleeping 5 seconds and then 2 seconds. -/
theorem C6_retry_policy_witness :
    anthropicPostWithRetry scriptRetryTwice =
      { outcome := CallOutcome.returned 200, requests := 3, delays := [5, 2] } := by
  have h := (C6_retry_policy scriptRetryTwice).2.1 2 (by decide)
    (fun i hi => by interval_cases i <;> decide) (by decide)
  rw [h]
  norm_num [scriptRetryTwice, List.range_succ, RETRY_BASE_DELAY]

/-- Adding an item into the stage dictionary preserves the invariant that
every stage total is the sum of its item totals. -/
theorem addToEtapas_valor (etapas : List EtapaProcessada) (cod : Int) (nome : String)
    (ip : ItemProcessado)
    (h : ∀ e ∈ etapas, e.valor_total = (e.itens.map (fun i => i.preco_total)).sum) :
    ∀ e ∈ addToEtapas etapas cod nome ip,
      e.valor_total = (e.itens.map (fun i => i.preco_total)).sum := by
  induction etapas with
  | nil =>
    intro e he
    simp only [addToEtapas, List.mem_singleton] at he
    subst he
    simp
  | cons hd tl ih =>
    intro e he
    simp only [addToEtapas] at he
    by_cases hnome : hd.nome = nome
    · rw [if_pos hnome] at he
      rcases List.mem_cons.mp he with h1 | h2
      · subst h1
        have hhd := h hd (List.mem_cons_self hd tl)
        simp [hhd]
      · exact h e (List.mem_cons_of_mem hd h2)
    · rw [if_neg hnome] at he
      rcases List.mem_cons.mp he with h1 | h2
      · subst h1
        exact h e (List.mem_cons_self e tl)
      · exact ih (fun x hx => h x (List.mem_cons_of_mem hd hx)) e h2

/-- Adding an item into the stage dictionary preserves any per-item
property that the new item also satisfies. -/
theorem addToEtapas_item (P : ItemProcessado → Prop) (etapas : List EtapaProcessada)
    (cod : Int) (nome : String) (ip : ItemProcessado) (hip : P ip)
    (h : ∀ e ∈ etapas, ∀ i ∈ e.itens, P i) :
    ∀ e ∈ addToEtapas etapas cod nome ip, ∀ i ∈ e.itens, P i := by
  induction etapas with
  | nil =>
    intro e he
    simp only [addToEtapas, List.mem_singleton] at he
    subst he
    intro i hi
    simp only [List.mem_singleton] at hi
    subst hi
    exact hip
  | cons hd tl ih =>
    intro e he
    simp only [addToEtapas] at he
    by_cases hnome : hd.nome = nome
    · rw [if_pos hnome] at he
      rcases List.mem_cons.mp he with h1 | h2
      · subst h1
        intro i hi
        simp only [List.mem_append, List.mem_singleton] at hi
        rcases hi with hi | hi
        · exact h hd (List.mem_cons_self hd tl) i hi
        · subst hi; exact hip
      · exact h e (List.mem_cons_of_mem hd h2)
    · rw [if_neg hnome] at he
      rcases List.mem_cons.mp he with h1 | h2
      · subst h1
        exact h e (List.mem_cons_self e tl)
      · exact ih (fun x hx => h x (List.mem_cons_of_mem hd hx)) e h2

/-- The synthesis fold preserves the stage-total invariant. -/
theorem sintetizarFold_valor (dq : ℚ) (pm : List (String × Option PrecoComposicao))
    (todo : List SearchOutcome) (etapas : List EtapaProcessada) (est : Estatisticas)
    (h : ∀ e ∈ etapas, e.valor_total = (e.itens.map (fun i => i.preco_total)).sum) :
    ∀ e ∈ (sintetizarFold dq pm todo etapas est).1,
      e.valor_total = (e.itens.map (fun i => i.preco_total)).sum := by
  induction todo generalizing etapas est with
  | nil => simpa [sintetizarFold] using h
  | cons r rest ih =>
    simp only [sintetizarFold]
    exact ih _ _ (addToEtapas_valor _ _ _ _ h)

/-- The synthesis fold preserves any per-item property satisfied by every
item it produces. -/
theorem sintetizarFold_item (dq : ℚ) (pm : List (String × Option PrecoComposicao))
    (P : ItemProcessado → Prop) (todo : List SearchOutcome)
    (etapas : List EtapaProcessada) (est : Estatisticas)
    (hQ : ∀ r ∈ todo, ∀ est2, P (processarResultado dq pm est2 r).1)
    (h : ∀ e ∈ etapas, ∀ i ∈ e.itens, P i) :
    ∀ e ∈ (sintetizarFold dq pm todo etapas est).1, ∀ i ∈ e.itens, P i := by
  induction todo generalizing etapas est with
  | nil => simpa [sintetizarFold] using h
  | cons r rest ih =>
    simp only [sintetizarFold]
    exact ih _ _ (fun x hx est2 => hQ x (List.mem_cons_of_mem r hx) est2)
      (addToEtapas_item P _ _ _ _ (hQ r (List.mem_cons_self r rest) est) h)

/-- The item built by the synthesis body prices and totals itself as
`total = unit * (quantity * requested units)`. -/
theorem processarResultado_total (dq : ℚ) (pm : List (String × Option PrecoComposicao))
    (est : Estatisticas) (r : SearchOutcome) :
    (processarResultado dq pm est r).1.preco_total =
      (processarResultado dq pm est r).1.preco_unitario *
        ((processarResultado dq pm est r).1.item_base.quantidade * dq) := rfl

/-- The search result is stored unchanged on the processed item. -/
theorem processarResultado_busca (dq : ℚ) (pm : List (String × Option PrecoComposicao))
    (est : Estatisticas) (r : SearchOutcome) :
    (processarResultado dq pm est r).1.busca_sinapi = r.busca := rfl

/-- The unit price of a matched item comes from the `precos_map` lookup of
its matched code. -/
theorem processarResultado_preco (dq : ℚ) (pm : List (String × Option PrecoComposicao))
    (est : Estatisticas) (r : SearchOutcome) (m : ComposicaoSinapi)
    (hm : r.busca.melhor_match = some m) :
    (processarResultado dq pm est r).1.preco_unitario =
      (match precosMapGet pm m.codigo with
       | some p => precoUnitarioDe p
       | none => 0) := by
  simp only [processarResultado, hm]
  cases precosMapGet pm m.codigo <;> rfl

/-- Looking a key up in the graph of a function over a key list. -/
theorem lookup_graph (f : String → Option PrecoComposicao) (l : List String) (c : String)
    (hc : c ∈ l) : (l.map (fun x => (x, f x))).lookup c = some (f c) := by
  induction l with
  | nil => cases hc
  | cons a t ih =>
    simp only [List.map_cons, List.lookup]
    by_cases h : c = a
    · subst h
      simp
    · have : (c == a) = false := beq_false_of_ne h
      rw [this]
      exact ih (List.mem_of_ne_of_mem h hc)

/-- The pricing calls issued by the batch tool are one per matched item. -/
theorem pricingCallsPorItem (searchOf : String → ResultadoBusca)
    (priceOf : String → Option PrecoComposicao) (itens : List ItemIn) :
    ((itens.map (processarItem searchOf priceOf)).map (fun p => p.2)).flatten =
      (itens.map (fun it => (searchOf it.nome).melhor_match.map
        (fun m => m.codigo))).reduceOption := by
  induction itens with
  | nil => simp
  | cons it rest ih =>
    simp only [List.reduceOption, Function.comp, List.map_map, List.filterMap_map,
      id_eq] at ih
    cases h : (searchOf it.nome).melhor_match <;>
      simp [processarItem, h, List.reduceOption, Function.comp, List.map_map,
        List.filterMap_map, id_eq, ih]

/-- C4: in the pipeline synthesis, every stage total equals the sum of its
items' totals, the budget total equals the sum of the stage totals, and
every item total is its unit price times (its base quantity times the
requested unit count) — exactly in ℚ, hence within floating-point
tolerance of the float computation. -/
theorem C4_aggregation (dq : ℚ) (priceOf : String → Option PrecoComposicao)
    (rs : List SearchOutcome) :
    (∀ e ∈ (pipelineProcess dq priceOf rs).etapas,
      e.valor_total = (e.itens.map (fun ip => ip.preco_total)).sum) ∧
    (pipelineProcess dq priceOf rs).valor_total =
      ((pipelineProcess dq priceOf rs).etapas.map (fun e => e.valor_total)).sum ∧
    (∀ e ∈ (pipelineProcess dq priceOf rs).etapas, ∀ ip ∈ e.itens,
      ip.preco_total = ip.preco_unitario * (ip.item_base.quantidade * dq)) := by
  refine ⟨?_, rfl, ?_⟩
  · intro e he
    exact sintetizarFold_valor dq _ rs [] _ (by simp) e he
  · intro e he ip hip
    refine sintetizarFold_item dq _
      (fun i => i.preco_total = i.preco_unitario * (i.item_base.quantidade * dq))
      rs [] _ ?_ (by simp) e he ip hip
    intro r _ est2
    exact processarResultado_total dq _ est2 r

/-- C4 witness: on a concrete three-item run the budget total is the sum
of the stage totals, over two stages. -/
theorem C4_aggregation_witness :
    (pipelineProcess 2 priceFixed rsDemo).valor_total =
      ((pipelineProcess 2 priceFixed rsDemo).etapas.map (fun e => e.valor_total)).sum ∧
    (pipelineProcess 2 priceFixed rsDemo).etapas.length = 2 := by
  refine ⟨(C4_aggregation 2 priceFixed rsDemo).2.1, ?_⟩
  rfl

/-- C3 counterexample: in the agent-tools path of the budget pipeline
(`handle_processar_itens_orcamento` → `_processar_item`), two items that
resolve to the same SINAPI code issue two pricing calls — one per item —
although only one distinct code is involved, contradicting the claimed
one-call-per-distinct-code behaviour. -/
theorem C3_counterexample :
    (handleProcessarItens searchSameCode priceFixed doisItensMesmoCodigo none).2.2 =
      ["87905", "87905"] ∧
    (handleProcessarItens searchSameCode priceFixed doisItensMesmoCodigo none).2.2.dedup.length
      = 1 := by
  constructor <;> rfl

/-- C3 amended: in `BudgetOrchestrator.process_stream` the pricing fan-out
is de-duplicated — exactly one pricing call per distinct matched code
(the call list has no duplicates and contains precisely the matched
codes), and every item matched to a code receives the unit price resolved
for that code, so two items with the same code get the same unit price;
in the agent tool handler, by contrast, `_processar_item` issues one
pricing call per matched item, with no de-duplication across items. -/
theorem C3_pricing_dedup (dq : ℚ) (priceOf : String → Option PrecoComposicao)
    (rs : List SearchOutcome) (searchOf : String → ResultadoBusca)
    (itens : List ItemIn) (slot : Slot) :
    (pipelineProcess dq priceOf rs).pricing_calls.Nodup ∧
    (∀ c, c ∈ (pipelineProcess dq priceOf rs).pricing_calls ↔
      ∃ r ∈ rs, ∃ m, r.busca.melhor_match = some m ∧ m.codigo = c) ∧
    (∀ e ∈ (pipelineProcess dq priceOf rs).etapas, ∀ ip ∈ e.itens,
      ∀ m, ip.busca_sinapi.melhor_match = some m →
        ip.preco_unitario = precoResolvido priceOf m.codigo) ∧
    (handleProcessarItens searchOf priceOf itens slot).2.2 =
      ((itens.map (fun it => (searchOf it.nome).melhor_match.map
        (fun m => m.codigo))).reduceOption) := by
  refine ⟨List.nodup_dedup _, ?_, ?_, ?_⟩
  · intro c
    unfold pipelineProcess codigosParaBuscar
    rw [List.mem_dedup, List.mem_filterMap]
    constructor
    · rintro ⟨r, hr, hm⟩
      rcases Option.map_eq_some'.mp hm with ⟨m, hm2, rfl⟩
      exact ⟨r, hr, m, hm2, rfl⟩
    · rintro ⟨r, hr, m, hm, rfl⟩
      exact ⟨r, hr, by simp [hm]⟩
  · intro e he ip hip m hm
    refine sintetizarFold_item dq _
      (fun i => ∀ m, i.busca_sinapi.melhor_match = some m →
        i.preco_unitario = precoResolvido priceOf m.codigo)
      rs [] _ ?_ (by simp) e he ip hip m hm
    intro r hr est2 m2 hm2
    rw [processarResultado_busca] at hm2
    rw [processarResultado_preco dq _ est2 r m2 hm2]
    have hmem : m2.codigo ∈ codigosParaBuscar rs := by
      simp only [codigosParaBuscar, List.mem_dedup, List.mem_filterMap,
        Option.map_eq_some']
      exact ⟨r, hr, m2, hm2, rfl⟩
    have hlook : precosMapGet (precosMap priceOf rs) m2.codigo = priceOf m2.codigo := by
      simp only [precosMapGet, precosMap]
      rw [lookup_graph priceOf _ _ hmem]
    rw [hlook]
    simp only [precoResolvido]
  · by_cases hi : itens = []
    · subst hi
      simp [handleProcessarItens]
    · simp only [handleProcessarItens, if_neg hi]
      exact pricingCallsPorItem searchOf priceOf itens

/-- C3 witness: in a concrete orchestrator run where two items match the
same code, exactly one pricing call is issued and both items carry the
same resolved unit price of 50. -/
theorem C3_pricing_dedup_witness :
    (pipelineProcess 2 priceFixed rsDemo).pricing_calls = ["87905"] ∧
    (∀ e ∈ (pipelineProcess 2 priceFixed rsDemo).etapas, ∀ ip ∈ e.itens,
      ∀ m, ip.busca_sinapi.melhor_match = some m →
        ip.preco_unitario = precoResolvido priceFixed m.codigo) := by
  refine ⟨rfl, (C3_pricing_dedup 2 priceFixed rsDemo searchSameCode [] none).2.2.1⟩

/-- C10 counterexample: with a staged non-empty batch, a save attempt in
which project creation fails gets past the emptiness check but does NOT
clear the slot, and a second save retries the stale batch instead of
returning the no-processed-budget error. -/
theorem C10_counterexample :
    (handleSalvarOrcamento springObraFalha slotComBatch).2 = slotComBatch ∧
    slotComBatch ≠ (none : Slot) ∧
    (handleSalvarOrcamento springObraFalha
      (handleSalvarOrcamento springObraFalha slotComBatch).2).1 ≠ MSG_NENHUM_ORCAMENTO := by
  refine ⟨rfl, by simp [slotComBatch], by decide⟩

/-- C10 amended: `handle_processar_itens_orcamento` overwrites the slot on
every invocation with a non-empty item list (the new slot is non-empty
and independent of the previous slot; an empty list leaves the slot
untouched); `handle_salvar_orcamento` leaves an empty slot as is with the
no-processed-budget error, leaves the slot unchanged when project or
budget creation fails, and clears the slot whenever both succeed — even
when every per-stage call fails — so that a second save without an
intervening processing call then returns the no-processed-budget error. -/
theorem C10_slot_lifecycle (searchOf : String → ResultadoBusca)
    (priceOf : String → Option PrecoComposicao) (itens : List ItemIn)
    (slot slot2 : Slot) (sp sp2 : SpringOutcomes) (etapas : List EtapaDado) :
    (itens ≠ [] →
      (handleProcessarItens searchOf priceOf itens slot).2.1 =
        (handleProcessarItens searchOf priceOf itens slot2).2.1 ∧
      (handleProcessarItens searchOf priceOf itens slot).2.1 ≠ none) ∧
    ((handleProcessarItens searchOf priceOf [] slot).2.1 = slot) ∧
    (handleSalvarOrcamento sp none = (MSG_NENHUM_ORCAMENTO, none)) ∧
    (handleSalvarOrcamento sp (some []) = (MSG_NENHUM_ORCAMENTO, some [])) ∧
    (etapas ≠ [] → sp.criar_obra = none →
      handleSalvarOrcamento sp (some etapas) = ("Erro: falha ao criar obra", some etapas)) ∧
    (etapas ≠ [] → (∃ x, sp.criar_obra = some x) → sp.criar_orcamento = none →
      handleSalvarOrcamento sp (some etapas) =
        ("Erro: falha ao criar orcamento", some etapas)) ∧
    (etapas ≠ [] → (∃ x, sp.criar_obra = some x) → (∃ y, sp.criar_orcamento = some y) →
      (handleSalvarOrcamento sp (some etapas)).2 = none ∧
      (handleSalvarOrcamento sp2 (handleSalvarOrcamento sp (some etapas)).2).1 =
        MSG_NENHUM_ORCAMENTO) := by
  refine ⟨?_, ?_, rfl, by simp [handleSalvarOrcamento], ?_, ?_, ?_⟩
  · intro hi
    constructor
    · simp [handleProcessarItens, hi]
    · simp [handleProcessarItens, hi]
  · simp [handleProcessarItens]
  · intro he hobra
    simp [handleSalvarOrcamento, he, hobra]
  · rintro he ⟨x, hobra⟩ horc
    simp [handleSalvarOrcamento, he, hobra, horc]
  · rintro he ⟨x, hobra⟩ ⟨y, horc⟩
    have h2 : (handleSalvarOrcamento sp (some etapas)).2 = none := by
      simp [handleSalvarOrcamento, he, hobra, horc]
    refine ⟨h2, ?_⟩
    rw [h2]
    rfl

/-- C10 witness: on a staged batch where the stage creation fails but the
project and budget are created, the slot is cleared and a second save
reports that nothing is staged. -/
theorem C10_slot_lifecycle_witness :
    (handleSalvarOrcamento springEtapaFalha (some batchFundacao)).2 = none ∧
    (handleSalvarOrcamento springEtapaFalha
      (handleSalvarOrcamento springEtapaFalha (some batchFundacao)).2).1 =
      MSG_NENHUM_ORCAMENTO := by
  exact (C10_slot_lifecycle searchSameCode priceFixed [] none none springEtapaFalha
    springEtapaFalha batchFundacao).2.2.2.2.2.2
    (by simp [batchFundacao]) ⟨7, rfl⟩ ⟨8, rfl⟩

/-- `execute_tool` always answers under the id of the call it was given,
on every branch. -/
theorem execute_tool_id (handlers : String → Option (Args → Except String String))
    (id name : String) (args : Args) :
    (execute_tool handlers id name args).tool_call_id = id := by
  unfold execute_tool
  cases hget : handlers name with
  | none => rfl
  | some h =>
    cases hh : h args with
    | ok c => simp [hh]
    | error e => simp [hh]

/-- The start/end stage tags of `TOOL_EVENT_MAP` are progress stages,
never the terminal `complete`/`error` tags. -/
theorem TOOL_EVENT_MAP_not_terminal (name s f m : String)
    (h : TOOL_EVENT_MAP name = some (s, f, m)) :
    (s ≠ "complete" ∧ s ≠ "error") ∧ f ≠ "complete" ∧ f ≠ "error" := by
  unfold TOOL_EVENT_MAP at h
  split_ifs at h <;>
  · simp only [Option.some.injEq, Prod.mk.injEq] at h
    obtain ⟨h1, h2, h3⟩ := h
    subst h1
    subst h2
    refine ⟨⟨by decide, by decide⟩, by decide, by decide⟩

/-- Tool execution emits only progress events, never terminal ones. -/
theorem runToolCalls_events_nonterminal
    (handlers : String → Option (Args → Except String String)) (tcs : List ToolCall) :
    ∀ e ∈ (runToolCalls handlers tcs).2, isTerminalEvent e = false := by
  induction tcs with
  | nil => simp [runToolCalls]
  | cons tc rest ih =>
    intro e he
    simp only [runToolCalls, List.mem_append] at he
    rcases he with (he | he) | he
    · match hmap : TOOL_EVENT_MAP tc.name with
      | none => rw [hmap] at he; cases he
      | some (s, f, m) =>
        rw [hmap] at he
        simp only [List.mem_singleton] at he
        subst he
        obtain ⟨⟨hs1, hs2⟩, _, _⟩ := TOOL_EVENT_MAP_not_terminal tc.name s f m hmap
        simp [isTerminalEvent, hs1, hs2]
    · match hmap : TOOL_EVENT_MAP tc.name with
      | none => rw [hmap] at he; cases he
      | some (s, f, m) =>
        rw [hmap] at he
        simp only [List.mem_singleton] at he
        subst he
        obtain ⟨_, hf1, hf2⟩ := TOOL_EVENT_MAP_not_terminal tc.name s f m hmap
        simp [isTerminalEvent, hf1, hf2]
    · exact ih e he

/-- The tool-result messages of one turn consume exactly the expected ids
of the turn's calls, in order. -/
theorem runToolCalls_scan (handlers : String → Option (Args → Except String String))
    (tcs : List ToolCall) :
    scanS (tcs.map (fun tc => tc.id)) (runToolCalls handlers tcs).1 = some [] := by
  induction tcs with
  | nil => rfl
  | cons tc rest ih =>
    simp only [runToolCalls, List.map_cons, scanS, execute_tool_id]
    simpa using ih

/-- Scanning a concatenation threads the expected-ids state through. -/
theorem scanS_append (xs ys : List GMsg) (e : List String) :
    scanS e (xs ++ ys) = (scanS e xs).bind (fun e2 => scanS e2 ys) := by
  induction xs generalizing e with
  | nil => simp [scanS]
  | cons m t ih =>
    match e, m with
    | [], GMsg.user _ => simpa [scanS] using ih []
    | [], GMsg.assistant _ tcs => simpa [scanS] using ih _
    | [], GMsg.tool _ _ _ => simp [scanS]
    | e1 :: es, GMsg.tool id _ _ =>
      by_cases h : e1 = id
      · subst h
        simpa [scanS] using ih es
      · simp [scanS, h]
    | e1 :: es, GMsg.user _ => simp [scanS]
    | e1 :: es, GMsg.assistant _ _ => simp [scanS]

/-- The agent loop preserves the pairing discipline of its message
history through every iteration. -/
theorem agentIterate_paired (script : Nat → Except String LLMResponseWithTools)
    (handlers : String → Option (Args → Except String String)) :
    ∀ (rem iter : Nat) (msgs : List GMsg) (evs : List EventoStream) (calls : Nat),
    scanS [] msgs = some [] →
    scanS [] (agentIterate script handlers rem iter msgs evs calls).messages = some [] := by
  intro rem
  induction rem with
  | zero => intro iter msgs evs calls h; exact h
  | succ n ih =>
    intro iter msgs evs calls h
    simp only [agentIterate]
    cases hscr : script iter with
    | error e => simp only [hscr]; exact h
    | ok response =>
      simp only [hscr]
      by_cases htc : response.tool_calls = []
      · rw [if_pos htc]
        simp only []
        rw [scanS_append, h]
        rfl
      · rw [if_neg htc]
        apply ih
        rw [scanS_append, h]
        simp only [Option.some_bind]
        show scanS [] (GMsg.assistant _ response.tool_calls ::
          (runToolCalls handlers response.tool_calls).1) = some []
        rw [scanS]
        exact runToolCalls_scan handlers response.tool_calls

/-- After the error cap, the loop events end with the terminal error and
everything before it is a progress event. -/
theorem agentIterate_cap (script : Nat → Except String LLMResponseWithTools)
    (handlers : String → Option (Args → Except String String))
    (hs : ∀ i, ∃ r, script i = Except.ok r ∧ r.tool_calls ≠ []) :
    ∀ (rem iter : Nat) (msgs : List GMsg) (evs : List EventoStream) (calls : Nat),
    (agentIterate script handlers rem iter msgs evs calls).llm_calls = calls + rem ∧
    ∃ mid, (agentIterate script handlers rem iter msgs evs calls).events =
      evs ++ mid ++ [{ etapa := "error", mensagem := MSG_LIMITE }] ∧
      ∀ e ∈ mid, isTerminalEvent e = false := by
  intro rem
  induction rem with
  | zero =>
    intro iter msgs evs calls
    exact ⟨rfl, [], by simp [agentIterate], by simp⟩
  | succ n ih =>
    intro iter msgs evs calls
    obtain ⟨r, hr, htc⟩ := hs iter
    simp only [agentIterate, hr, if_neg htc]
    obtain ⟨h1, mid, h2, h3⟩ := ih (iter + 1)
      (msgs ++ GMsg.assistant (truthyContent r.content) r.tool_calls ::
        (runToolCalls handlers r.tool_calls).1)
      (evs ++ (match truthyContent r.content with
        | some s => [{ etapa := "message", mensagem := s }]
        | none => []) ++ (runToolCalls handlers r.tool_calls).2)
      (calls + 1)
    refine ⟨by rw [h1]; omega, (match truthyContent r.content with
        | some s => [{ etapa := "message", mensagem := s }]
        | none => []) ++ (runToolCalls handlers r.tool_calls).2 ++ mid, ?_, ?_⟩
    · rw [h2]
      simp [List.append_assoc]
    · intro e he
      simp only [List.mem_append] at he
      rcases he with (he | he) | he
      · match hc : truthyContent r.content with
        | some str => rw [hc] at he; simp only [List.mem_singleton] at he; subst he; rfl
        | none => rw [hc] at he; cases he
      · exact runToolCalls_events_nonterminal handlers r.tool_calls e he
      · exact h3 e he

/-- C8: with a provider whose every reply requests at least one tool call,
the agent loop makes exactly `MAX_ITERATIONS` (30) model calls, each
followed by tool execution, and then stops with exactly one terminal
event, the iteration-cap error, emitted last. -/
theorem C8_iteration_cap (script : Nat → Except String LLMResponseWithTools)
    (handlers : String → Option (Args → Except String String)) (u : String)
    (hs : ∀ i, ∃ r, script i = Except.ok r ∧ r.tool_calls ≠ []) :
    (agentProcessStream script handlers [] u).llm_calls = MAX_ITERATIONS ∧
    ((agentProcessStream script handlers [] u).events.filter
      (fun e => isTerminalEvent e)).length = 1 ∧
    ∃ mid, (agentProcessStream script handlers [] u).events =
      mid ++ [{ etapa := "error", mensagem := MSG_LIMITE }] ∧
      ∀ e ∈ mid, isTerminalEvent e = false := by
  obtain ⟨h1, mid, h2, h3⟩ := agentIterate_cap script handlers hs
    MAX_ITERATIONS 0 ([] ++ [GMsg.user u]) [] 0
  have h2b : (agentProcessStream script handlers [] u).events =
      mid ++ [{ etapa := "error", mensagem := MSG_LIMITE }] := by
    show (agentIterate script handlers MAX_ITERATIONS 0 ([] ++ [GMsg.user u]) [] 0).events = _
    simpa using h2
  have h1b : (agentProcessStream script handlers [] u).llm_calls = MAX_ITERATIONS := by
    show (agentIterate script handlers MAX_ITERATIONS 0 ([] ++ [GMsg.user u]) [] 0).llm_calls = _
    simpa using h1
  refine ⟨h1b, ?_, mid, h2b, h3⟩
  have hmid : mid.filter (fun e => isTerminalEvent e) = [] :=
    List.filter_eq_nil_iff.mpr (fun e he => by simp [h3 e he])
  rw [h2b, List.filter_append, hmid]
  simp [isTerminalEvent]

/-- C8 witness: a scripted provider always requesting one tool call runs
the loop to the cap of 30 model calls and yields exactly one terminal
event. -/
theorem C8_iteration_cap_witness :
    (agentProcessStream demoScript demoHandlers [] "Gere um orcamento").llm_calls =
      MAX_ITERATIONS ∧
    ((agentProcessStream demoScript demoHandlers [] "Gere um orcamento").events.filter
      (fun e => isTerminalEvent e)).length = 1 := by
  obtain ⟨h1, h2, _⟩ := C8_iteration_cap demoScript demoHandlers "Gere um orcamento"
    (fun i => ⟨demoReply, rfl, by simp [demoReply]⟩)
  exact ⟨h1, h2⟩

/-- An element followed by a non-empty tail stays in `dropLast`. -/
theorem mem_split_dropLast (pre post : List EventoStream) (e : EventoStream)
    (hpost : post ≠ []) : e ∈ (pre ++ e :: post).dropLast := by
  induction pre with
  | nil =>
    simp only [List.nil_append]
    rw [List.dropLast_cons_of_ne_nil hpost]
    exact List.mem_cons_self e _
  | cons a t ih =>
    have hne : t ++ e :: post ≠ [] := by simp
    rw [List.cons_append, List.dropLast_cons_of_ne_nil hne]
    exact List.mem_cons_of_mem a ih

/-- A stream whose non-final events are all progress events has its
terminal event (if any) last. -/
theorem terminalIsLast_of_dropLast (evs : List EventoStream)
    (h : ∀ e ∈ evs.dropLast, isTerminalEvent e = false) : terminalIsLast evs := by
  intro pre e post heq hterm
  by_contra hpost
  have hmem : e ∈ evs.dropLast := by
    rw [heq]
    exact mem_split_dropLast pre post e hpost
  exact absurd hterm (by simp [h e hmem])

/-- A stream whose non-final events are all progress events carries at
most one terminal event. -/
theorem filter_terminal_le_one (evs : List EventoStream)
    (h : ∀ e ∈ evs.dropLast, isTerminalEvent e = false) :
    (evs.filter (fun e => isTerminalEvent e)).length ≤ 1 := by
  rcases eq_or_ne evs [] with rfl | hne
  · simp
  · have hsplit := List.dropLast_append_getLast hne
    conv_lhs => rw [← hsplit]
    rw [List.filter_append]
    have hnil : evs.dropLast.filter (fun e => isTerminalEvent e) = [] :=
      List.filter_eq_nil_iff.mpr (fun e he => by simp [h e he])
    rw [hnil]
    simp only [List.nil_append, List.filter]
    split <;> simp

/-- In the agent loop, every event emitted before the final one is a
progress event. -/
theorem agentIterate_dropLast (script : Nat → Except String LLMResponseWithTools)
    (handlers : String → Option (Args → Except String String)) :
    ∀ (rem iter : Nat) (msgs : List GMsg) (evs : List EventoStream) (calls : Nat),
    (∀ e ∈ evs, isTerminalEvent e = false) →
    ∀ e ∈ (agentIterate script handlers rem iter msgs evs calls).events.dropLast,
      isTerminalEvent e = false := by
  intro rem
  induction rem with
  | zero =>
    intro iter msgs evs calls h e he
    simp only [agentIterate, List.dropLast_concat] at he
    exact h e he
  | succ n ih =>
    intro iter msgs evs calls h
    simp only [agentIterate]
    cases hscr : script iter with
    | error err =>
      simp only [hscr]
      intro e he
      rw [List.dropLast_concat] at he
      exact h e he
    | ok response =>
      simp only [hscr]
      by_cases htc : response.tool_calls = []
      · rw [if_pos htc]
        intro e he
        simp only [List.dropLast_concat] at he
        exact h e he
      · rw [if_neg htc]
        apply ih
        intro e he
        simp only [List.mem_append] at he
        rcases he with (he | he) | he
        · exact h e he
        · match hc : truthyContent response.content with
          | some str =>
            rw [hc] at he
            simp only [List.mem_singleton] at he
            subst he
            rfl
          | none =>
            rw [hc] at he
            cases he
        · exact runToolCalls_events_nonterminal handlers response.tool_calls e he

/-- C7 amended: every `BudgetAgent.process_stream` run yields at most one
terminal (`complete`/`error`) event and nothing after it; the
conversational orchestrator, however, answers an invalid field value with
an `error` event that is deliberately followed by one `question` event
re-asking the field. -/
theorem C7_terminal_event (script : Nat → Except String LLMResponseWithTools)
    (handlers : String → Option (Args → Except String String))
    (historico : List GMsg) (u : String) (s : EstadoConversacao) (ins : ConvIn)
    (isNew : Bool) (rc : String × String) :
    (terminalIsLast (agentProcessStream script handlers historico u).events ∧
      ((agentProcessStream script handlers historico u).events.filter
        (fun e => isTerminalEvent e)).length ≤ 1) ∧
    (ins.resposta_campo = some rc → rc.1 ≠ "" → ins.normalizado = none →
      (convProcessStream s ins isNew).2 =
        [(if isNew then { etapa := "session_created", mensagem := "Sessão criada" }
          else { etapa := "session_resumed", mensagem := "Sessão retomada" }),
         { etapa := "error", mensagem := "Valor inválido para campo " ++ rc.1 },
         emitirPergunta rc.1]) := by
  constructor
  · have hd := agentIterate_dropLast script handlers MAX_ITERATIONS 0
      (historico ++ [GMsg.user u]) [] 0 (by simp)
    exact ⟨terminalIsLast_of_dropLast _ hd, filter_terminal_le_one _ hd⟩
  · intro hrc hne hn
    obtain ⟨c, v⟩ := rc
    simp only at hne
    unfold convProcessStream convProcessCore
    cases hno : ins.nome_obra <;> simp [hrc, hn, hno, truthyStr, hne]

/-- C7 counterexample: one conversational run answering an invalid UF
value emits an `error` event and then still emits a `question` event —
an event after a terminal-tagged event, violating the claim as stated
for `ConversationalOrchestrator.process_stream`. -/
theorem C7_counterexample :
    (convProcessStream (criarSessao "10" "2025" none) convInRespostaInvalida false).2 =
      [{ etapa := "session_resumed", mensagem := "Sessão retomada" },
       { etapa := "error", mensagem := "Valor inválido para campo uf" },
       { etapa := "question", mensagem := "Em qual estado será construída a obra?" }] ∧
    isTerminalEvent { etapa := "error", mensagem := "Valor inválido para campo uf" } = true := by
  constructor
  · rfl
  · rfl

/-- C7 witness: the agent-side guarantee applied to a concrete scripted
run, and the conversational exception evaluated on a concrete session. -/
theorem C7_terminal_event_witness :
    terminalIsLast (agentProcessStream demoScript demoHandlers [] "Gere um orcamento").events ∧
    ((convProcessStream (criarSessao "10" "2025" none) convInRespostaInvalida false).2).length
      = 3 := by
  constructor
  · exact (C7_terminal_event demoScript demoHandlers [] "Gere um orcamento"
      (criarSessao "10" "2025" none) convInRespostaInvalida false ("uf", "xx")).1.1
  · rw [(C7_terminal_event demoScript demoHandlers [] "Gere um orcamento"
      (criarSessao "10" "2025" none) convInRespostaInvalida false ("uf", "xx")).2
      rfl (by decide) rfl]
    rfl

/-- Every entry of the updated field dictionary is either the new entry or
an old one. -/
theorem campoSet_mem (campos : List (String × CampoInfo)) (nome : String)
    (info : CampoInfo) (p : String × CampoInfo) (hp : p ∈ campoSet campos nome info) :
    p.2 = info ∨ p ∈ campos := by
  unfold campoSet at hp
  by_cases hin : campos.any (fun q => q.1 = nome)
  · rw [if_pos hin] at hp
    rcases List.mem_map.mp hp with ⟨q, hq, rfl⟩
    by_cases hqn : q.1 = nome
    · rw [if_pos hqn]; exact Or.inl rfl
    · rw [if_neg hqn]; exact Or.inr hq
  · rw [if_neg hin] at hp
    rcases List.mem_append.mp hp with h1 | h1
    · exact Or.inr h1
    · simp only [List.mem_singleton] at h1
      subst h1
      exact Or.inl rfl

/-- Updating a field with a non-default source cannot introduce a silently
usable default. -/
theorem sem_atualizarCampo (s : EstadoConversacao) (campo : String) (valor : Option String)
    (fonte : FonteCampo) (conf : ℚ) (hf : fonte ≠ FonteCampo.padrao)
    (h : semPadraoNaoConfirmado s) :
    semPadraoNaoConfirmado (atualizarCampo s campo valor fonte conf) := by
  intro p hp
  rcases campoSet_mem _ _ _ p hp with h1 | h1
  · rw [h1]
    intro hcon
    exact hf hcon.1
  · exact h p h1

/-- After `confirmar_todos_defaults`, no field is an unconfirmed default. -/
theorem sem_confirmarTodos (s : EstadoConversacao) :
    semPadraoNaoConfirmado (confirmarTodosDefaults s) := by
  intro p hp
  simp only [confirmarTodosDefaults, List.mem_map] at hp
  obtain ⟨q, hq, rfl⟩ := hp
  by_cases hc : q.2.fonte = FonteCampo.padrao ∧ q.2.confirmado = false
  · rw [if_pos hc]
    intro hcon
    cases hcon.1
  · rw [if_neg hc]
    exact hc

/-- The unconfirmed-defaults list is empty exactly when the session has no
silently usable default. -/
theorem sem_iff_filter_nil (s : EstadoConversacao) :
    camposComPadraoNaoConfirmados s = [] ↔ semPadraoNaoConfirmado s := by
  unfold camposComPadraoNaoConfirmados semPadraoNaoConfirmado
  rw [List.filter_eq_nil_iff]
  constructor <;> intro h p hp <;> simpa using h p hp

/-- A fold of phase-preserving updates preserves the phase. -/
theorem foldl_fase_inv {α : Type} (f : EstadoConversacao → α → EstadoConversacao)
    (hf : ∀ acc p, (f acc p).fase = acc.fase) (l : List α) (s : EstadoConversacao) :
    (l.foldl f s).fase = s.fase := by
  induction l generalizing s with
  | nil => rfl
  | cons p t ih => rw [List.foldl_cons, ih, hf]

/-- Steps 5-8 preserve the no-silent-default invariant. -/
theorem convAfterExtracao_inv (s : EstadoConversacao) (ins : ConvIn)
    (evs : List EventoStream)
    (h : s.fase ≠ FaseConversacao.coleta → semPadraoNaoConfirmado s) :
    (convProcessCore.convAfterExtracao s ins evs).1.fase ≠ FaseConversacao.coleta →
      semPadraoNaoConfirmado (convProcessCore.convAfterExtracao s ins evs).1 := by
  unfold convProcessCore.convAfterExtracao
  cases hp : s.campos_pendentes with
  | cons c t => exact h
  | nil =>
    simp only []
    by_cases h6 : camposComPadraoNaoConfirmados s ≠ [] ∧ s.fase = FaseConversacao.coleta
    · rw [if_pos h6]; exact h
    · rw [if_neg h6]
      by_cases h7 : s.fase = FaseConversacao.coleta
      · rw [if_pos h7]
        intro _
        have hnil : camposComPadraoNaoConfirmados s = [] := by
          by_contra hc
          exact h6 ⟨hc, h7⟩
        exact (sem_iff_filter_nil s).mp hnil
      · rw [if_neg h7]
        by_cases h8 : s.fase = FaseConversacao.processamento
        · rw [if_pos h8]
          by_cases hd : ins.dados_ok = false
          · rw [if_pos hd]; exact h
          · rw [if_neg hd]
            intro _
            exact h h7
        · rw [if_neg h8]; exact h

/-- The extraction update never changes the phase. -/
theorem aplicarExtracao_fase (s : EstadoConversacao) (ex : ExtracaoIn) :
    (aplicarExtracao s ex).fase = s.fase := by
  refine Eq.trans ?_ (foldl_fase_inv
    (fun acc p => atualizarCampo acc p.1 p.2.valor p.2.fonte p.2.confianca)
    (fun acc p => rfl) ex.campos_extraidos s)
  refine foldl_fase_inv
    (fun (acc : EstadoConversacao) (p : String × String) =>
      match campoGet acc.campos p.1 with
      | some info =>
        if info.valor = none then
          atualizarCampo acc p.1 (some p.2) FonteCampo.padrao 1
        else acc
      | none => atualizarCampo acc p.1 (some p.2) FonteCampo.padrao 1)
    ?_ ex.campos_com_padrao _
  intro acc p
  show (match campoGet acc.campos p.1 with
    | some info =>
      if info.valor = none then
        atualizarCampo acc p.1 (some p.2) FonteCampo.padrao 1
      else acc
    | none => atualizarCampo acc p.1 (some p.2) FonteCampo.padrao 1).fase = acc.fase
  cases campoGet acc.campos p.1 with
  | none => rfl
  | some info =>
    show (if info.valor = none then
        atualizarCampo acc p.1 (some p.2) FonteCampo.padrao 1
      else acc).fase = acc.fase
    by_cases hv : info.valor = none
    · rw [if_pos hv]
      rfl
    · rw [if_neg hv]

/-- Steps 4-8 preserve the no-silent-default invariant: extraction only
runs while collecting, where the invariant is vacuous. -/
theorem convAfterConfirmacao_inv (s : EstadoConversacao) (ins : ConvIn)
    (evs : List EventoStream)
    (h : s.fase ≠ FaseConversacao.coleta → semPadraoNaoConfirmado s) :
    (convProcessCore.convAfterConfirmacao s ins evs).1.fase ≠ FaseConversacao.coleta →
      semPadraoNaoConfirmado (convProcessCore.convAfterConfirmacao s ins evs).1 := by
  unfold convProcessCore.convAfterConfirmacao
  by_cases hcond : s.fase = FaseConversacao.coleta ∧ truthyStr ins.texto_usuario
      ∧ ins.resposta_campo = none
  · rw [if_pos hcond]
    by_cases hsuc : ins.extracao.sucesso = false
    · rw [if_pos hsuc]; exact h
    · rw [if_neg hsuc]
      apply convAfterExtracao_inv
      intro hf
      exact absurd ((aplicarExtracao_fase s ins.extracao).trans hcond.1) hf
  · rw [if_neg hcond]
    exact convAfterExtracao_inv s ins evs h

/-- Steps 3-8 preserve the no-silent-default invariant. -/
theorem convAfterResposta_inv (s : EstadoConversacao) (ins : ConvIn)
    (evs : List EventoStream)
    (h : s.fase ≠ FaseConversacao.coleta → semPadraoNaoConfirmado s) :
    (convProcessCore.convAfterResposta s ins evs).1.fase ≠ FaseConversacao.coleta →
      semPadraoNaoConfirmado (convProcessCore.convAfterResposta s ins evs).1 := by
  unfold convProcessCore.convAfterResposta
  by_cases hc1 : ins.confirmacao = some "confirmar"
  · rw [if_pos hc1]
    by_cases hfase : s.fase = FaseConversacao.coleta
    · rw [if_pos hfase]
      exact convAfterConfirmacao_inv _ ins _ (fun _ => sem_confirmarTodos s)
    · rw [if_neg hfase]
      by_cases hfase2 : s.fase = FaseConversacao.confirmacao
      · rw [if_pos hfase2]
        exact convAfterConfirmacao_inv _ ins _ (fun _ => h hfase)
      · rw [if_neg hfase2]
        exact convAfterConfirmacao_inv s ins evs h
  · rw [if_neg hc1]
    by_cases hc2 : ins.confirmacao = some "corrigir"
    · rw [if_pos hc2]
      intro hf
      exact absurd rfl hf
    · rw [if_neg hc2]
      exact convAfterConfirmacao_inv s ins evs h

/-- One full `process_stream` call preserves the no-silent-default
invariant. -/
theorem convProcessCore_inv (s : EstadoConversacao) (ins : ConvIn)
    (h : s.fase ≠ FaseConversacao.coleta → semPadraoNaoConfirmado s) :
    (convProcessCore s ins).1.fase ≠ FaseConversacao.coleta →
      semPadraoNaoConfirmado (convProcessCore s ins).1 := by
  unfold convProcessCore
  cases hno : ins.nome_obra with
  | none =>
    simp only []
    cases hrc : ins.resposta_campo with
    | none =>
      simp only []
      exact convAfterResposta_inv s ins [] h
    | some rc =>
      simp only []
      by_cases ht : truthyStr (some rc.1) = true
      · rw [if_pos ht]
        cases hn : ins.normalizado with
        | some v =>
          simp only []
          exact convAfterResposta_inv _ ins _
            (fun hf => sem_atualizarCampo s rc.1 (some v) FonteCampo.usuario 1
              (by decide) (h hf))
        | none =>
          simp only []
          exact h
      · rw [if_neg ht]
        exact convAfterResposta_inv s ins [] h
  | some n =>
    simp only []
    have h2 : ({ s with nome_obra := some n } :
        EstadoConversacao).fase ≠ FaseConversacao.coleta →
        semPadraoNaoConfirmado { s with nome_obra := some n } := h
    cases hrc : ins.resposta_campo with
    | none =>
      simp only []
      exact convAfterResposta_inv _ ins [] h2
    | some rc =>
      simp only []
      by_cases ht : truthyStr (some rc.1) = true
      · rw [if_pos ht]
        cases hn : ins.normalizado with
        | some v =>
          simp only []
          exact convAfterResposta_inv _ ins _
            (fun hf => sem_atualizarCampo _ rc.1 (some v) FonteCampo.usuario 1
              (by decide) (h2 hf))
        | none =>
          simp only []
          exact h2
      · rw [if_neg ht]
        exact convAfterResposta_inv _ ins [] h2

/-- C2: defaults are never silently used — in every reachable session
state outside the collecting phase (in particular whenever the phase is
`processamento`), no field carries `fonte = padrao` while unconfirmed:
every default-sourced field is confirmed before the session leaves the
collecting phase. -/
theorem C2_no_silent_defaults (s : EstadoConversacao) (h : ReachableSession s) :
    s.fase ≠ FaseConversacao.coleta → semPadraoNaoConfirmado s := by
  induction h with
  | init m a n => intro hf; exact absurd rfl hf
  | step s0 ins h0 ih => exact convProcessCore_inv s0 ins ih

/-- C2 witness: a concrete three-call conversation (extraction of the
required fields, confirmation of the defaults, confirmation of the
summary with failing data assembly) reaches the processing phase with
every default-sourced field confirmed. -/
theorem C2_no_silent_defaults_witness :
    sessaoProcessamento.fase = FaseConversacao.processamento ∧
    semPadraoNaoConfirmado sessaoProcessamento := by
  have hreach : ReachableSession sessaoProcessamento :=
    ReachableSession.step _ convIn3 (ReachableSession.step _ convIn2
      (ReachableSession.step _ convIn1 (ReachableSession.init "10" "2025" none)))
  exact ⟨by decide, C2_no_silent_defaults sessaoProcessamento hreach (by decide)⟩

/-- A fully paired wire prefix can be cut off: pairing of the whole list
reduces to pairing of the rest. -/
theorem pairedSigB_append (xs ys : List (String × List String × List String))
    (h : pairedSigB xs = true) : pairedSigB (xs ++ ys) = pairedSigB ys := by
  induction xs using pairedSigB.induct with
  | case1 => simp
  | case2 resIds rest ih =>
    rw [pairedSigB.eq_def] at h
    simp at h
    rw [List.cons_append, pairedSigB.eq_def]
    simpa using ih h
  | case3 useIds resIds huse role2 fst resIds2 rest2 ih =>
    rw [pairedSigB.eq_def] at h
    simp [huse] at h
    obtain ⟨⟨h1, h2⟩, h3⟩ := h
    rw [List.cons_append, pairedSigB.eq_def]
    simp [huse, h1, h2]
    exact ih h3
  | case4 useIds resIds huse =>
    rw [pairedSigB.eq_def] at h
    simp [huse] at h
  | case5 role useIds resIds rest hrole ih =>
    rw [pairedSigB.eq_def] at h
    simp [hrole] at h
    obtain ⟨h1, h2⟩ := h
    rw [List.cons_append, pairedSigB.eq_def]
    simp [hrole, h1]
    exact ih h2

/-- When the scan accepts `ids` against `rest`, the leading run of tool
messages carries exactly those ids (in order) as `tool_result` blocks,
and the remainder, which does not start with a tool message, is itself
fully paired. -/
theorem scanS_run (ids : List String) (rest : List GMsg) (h : scanS ids rest = some []) :
    toolResultIds (AContent.blocks ((rest.takeWhile isToolMsg).map toolResultBlock)) = ids ∧
    scanS [] (rest.dropWhile isToolMsg) = some [] := by
  induction ids generalizing rest with
  | nil =>
    cases rest with
    | nil => exact ⟨rfl, rfl⟩
    | cons m t =>
      cases m with
      | user c => exact ⟨rfl, h⟩
      | assistant c tcs => exact ⟨rfl, h⟩
      | tool id c err => exact absurd h (by simp [scanS])
  | cons e es ih =>
    cases rest with
    | nil => exact absurd h (by simp [scanS])
    | cons m t =>
      cases m with
      | user c => exact absurd h (by simp [scanS])
      | assistant c tcs => exact absurd h (by simp [scanS])
      | tool id c err =>
        by_cases he : e = id
        · subst he
          rw [scanS, if_pos rfl] at h
          obtain ⟨h1, h2⟩ := ih t h
          constructor
          · show toolResultIds (AContent.blocks
              (ABlock.toolResult e c err :: (t.takeWhile isToolMsg).map toolResultBlock)) = e :: es
            simp only [toolResultIds, List.filterMap_cons] at h1 ⊢
            rw [h1]
          · exact h2
        · rw [scanS, if_neg he] at h
          cases h

/-- The `tool_use` ids of an assistant message built from text blocks plus
the calls' `tool_use` blocks are exactly the call ids in order. -/
theorem toolUseIds_blocks (textBlocks : List ABlock)
    (ht : ∀ b ∈ textBlocks, (match b with
      | ABlock.toolUse i _ _ => some i
      | _ => none) = (none : Option String))
    (tcs : List ToolCall) :
    toolUseIds (AContent.blocks
      (textBlocks ++ tcs.map (fun tc => ABlock.toolUse tc.id tc.name tc.arguments))) =
      tcs.map (fun tc => tc.id) := by
  simp only [toolUseIds, List.filterMap_append, List.filterMap_map]
  rw [List.filterMap_eq_nil_iff.mpr ht, List.nil_append]
  induction tcs with
  | nil => rfl
  | cons tc rest ih => simpa [List.filterMap_cons] using ih

/-- An assistant message never carries `tool_result` ids, so its
`tool_use` ids do not change when text blocks are prepended. -/
theorem toolResultIds_useBlocks (textBlocks : List ABlock)
    (ht : ∀ b ∈ textBlocks, (match b with
      | ABlock.toolResult i _ _ => some i
      | _ => none) = (none : Option String))
    (tcs : List ToolCall) :
    toolResultIds (AContent.blocks
      (textBlocks ++ tcs.map (fun tc => ABlock.toolUse tc.id tc.name tc.arguments))) = [] := by
  simp only [toolResultIds, List.filterMap_append, List.filterMap_map]
  rw [List.filterMap_eq_nil_iff.mpr ht, List.nil_append]
  exact List.filterMap_eq_nil_iff.mpr (fun a _ => rfl)

/-- The pairing shape of the assistant message of one turn: role
assistant, the call ids as `tool_use` ids, no `tool_result` ids. -/
theorem msgSig_assistantAMsg (c : Option String) (tcs : List ToolCall) :
    msgSig (assistantAMsg c tcs) = ("assistant", tcs.map (fun tc => tc.id), []) := by
  unfold assistantAMsg msgSig
  simp only []
  set textBlocks := (match c with
    | some s => if s = "" then ([] : List ABlock) else [ABlock.text s]
    | none => ([] : List ABlock)) with htb
  have ht : ∀ b ∈ textBlocks,
      ((match b with
        | ABlock.toolUse i _ _ => some i
        | _ => none) = (none : Option String)) ∧
      ((match b with
        | ABlock.toolResult i _ _ => some i
        | _ => none) = (none : Option String)) := by
    rw [htb]
    cases c with
    | none => simp
    | some s => by_cases hs : s = "" <;> simp [hs]
  by_cases hb : textBlocks ++ tcs.map (fun tc => ABlock.toolUse tc.id tc.name tc.arguments) = []
  · rw [if_pos hb]
    have htc : tcs = [] := by
      rcases List.append_eq_nil.mp hb with ⟨_, h2⟩
      exact List.map_eq_nil_iff.mp h2
    simp [toolUseIds, toolResultIds, htc]
  · rw [if_neg hb]
    rw [toolUseIds_blocks textBlocks (fun b hb2 => (ht b hb2).1) tcs,
      toolResultIds_useBlocks textBlocks (fun b hb2 => (ht b hb2).2) tcs]

/-- One complete assistant turn — assistant message with `tool_use` ids U
followed by a user message answering exactly U — is paired. -/
theorem pairedSigB_turn (U X : List String) :
    pairedSigB [("assistant", U, ([] : List String)), ("user", X, U)] = true := by
  by_cases hU : U = []
  · subst hU
    rfl
  · rw [pairedSigB.eq_def]
    simp [hU]
    rfl

/-- The conversion of a fully paired generic history satisfies the
Anthropic pairing discipline, whatever was already emitted (as long as it
was itself paired). -/
theorem convertGo_paired : ∀ (msgs : List GMsg) (acc : List AMsg),
    scanS [] msgs = some [] →
    pairedSigB (acc.reverse.map msgSig) = true →
    pairedSigB ((convertMessagesGo msgs acc).map msgSig) = true := by
  intro msgs acc
  induction msgs, acc using convertMessagesGo.induct with
  | case1 acc =>
    intro _ hacc
    rw [convertMessagesGo]
    exact hacc
  | case2 c rest s accTail ih =>
    intro hm hacc
    rw [convertMessagesGo]
    apply ih
    · simpa [scanS] using hm
    · simpa [msgSig, toolUseIds, toolResultIds] using hacc
  | case3 c rest bs accTail ih =>
    intro hm hacc
    rw [convertMessagesGo]
    apply ih
    · simpa [scanS] using hm
    · simpa [msgSig, toolUseIds, toolResultIds, List.filterMap_append] using hacc
  | case4 acc c rest hno1 hno2 ih =>
    intro hm hacc
    rw [convertMessagesGo]
    · apply ih
      · simpa [scanS] using hm
      · rw [List.reverse_cons, List.map_append, pairedSigB_append _ _ hacc]
        rfl
    · exact hno1
    · exact hno2
  | case5 acc c tcs rest ih =>
    intro hm hacc
    rw [convertMessagesGo]
    simp only [scanS] at hm
    obtain ⟨hres, hrest2⟩ := scanS_run _ _ hm
    apply ih
    · exact hrest2
    · unfold convertStepAcc
      by_cases hrb : (rest.takeWhile isToolMsg).map toolResultBlock = []
      · rw [if_pos hrb]
        rw [List.reverse_cons, List.map_append, pairedSigB_append _ _ hacc]
        have huse : tcs.map (fun tc => tc.id) = [] := by
          rw [← hres, hrb]
          rfl
        rw [List.map_cons, List.map_nil, msgSig_assistantAMsg, huse]
        rfl
      · rw [if_neg hrb]
        have hrev : (AMsg.mk "user" (AContent.blocks
              ((rest.takeWhile isToolMsg).map toolResultBlock)) ::
              assistantAMsg c tcs :: acc).reverse =
            acc.reverse ++ [assistantAMsg c tcs, AMsg.mk "user" (AContent.blocks
              ((rest.takeWhile isToolMsg).map toolResultBlock))] := by
          simp
        rw [hrev, List.map_append, pairedSigB_append _ _ hacc]
        have hsigr : msgSig (AMsg.mk "user" (AContent.blocks
            ((rest.takeWhile isToolMsg).map toolResultBlock))) =
            ("user", toolUseIds (AContent.blocks
              ((rest.takeWhile isToolMsg).map toolResultBlock)),
             tcs.map (fun tc => tc.id)) := by
          unfold msgSig
          rw [hres]
        rw [List.map_cons, List.map_cons, List.map_nil, msgSig_assistantAMsg, hsigr]
        exact pairedSigB_turn _ _
  | case6 acc id content err rest ih =>
    intro hm _
    exact absurd hm (by simp [scanS])

/-- C1: every message history produced by one `BudgetAgent.process_stream`
run (from a paired prior history) keeps every assistant message with N
tool calls immediately followed by exactly its N results in call order,
and the Anthropic adapter's conversion of such a history emits exactly N
`tool_result` blocks, with the same ids in the same order, in the user
message immediately after each assistant `tool_use` message. -/
theorem C1_tool_pairing (script : Nat → Except String LLMResponseWithTools)
    (handlers : String → Option (Args → Except String String))
    (historico : List GMsg) (u : String) (h : wellPaired historico) :
    wellPaired (agentProcessStream script handlers historico u).messages ∧
    anthropicPaired
      (convert_messages (agentProcessStream script handlers historico u).messages) = true := by
  have hmsgs : scanS [] (historico ++ [GMsg.user u]) = some [] := by
    rw [scanS_append, h]
    rfl
  have hp := agentIterate_paired script handlers MAX_ITERATIONS 0
    (historico ++ [GMsg.user u]) [] 0 hmsgs
  exact ⟨hp, convertGo_paired _ [] hp rfl⟩

/-- C1 witness: a fresh scripted run, checked concretely. -/
theorem C1_tool_pairing_witness :
    wellPaired (agentProcessStream demoScript demoHandlers [] "Gere um orcamento").messages ∧
    anthropicPaired (convert_messages
      (agentProcessStream demoScript demoHandlers [] "Gere um orcamento").messages) = true :=
  C1_tool_pairing demoScript demoHandlers [] "Gere um orcamento" (by decide)

end Obradoria
